import Mathlib

/-!
Shallow embedding of the threat-grapher repository core, used to settle the
frozen claims about its specification.  Python functions are translated into
executable Lean definitions: events are ordered association lists of strings,
machine arithmetic uses `Nat`/`Int`/`ℚ`, and fallible operations return
`Option`.  Python string semantics (truthiness, `strip`, `lower`, slicing)
are modelled at ASCII level, which covers every input exercised here.
-/

namespace ThreatGrapher

/-! ### Python string primitives (ASCII semantics) -/

/-- Python whitespace test for ASCII characters: space, tab, newline,
carriage return, vertical tab, form feed. -/
def pyIsSpace (c : Char) : Bool :=
  c.toNat == 32 || c.toNat == 9 || c.toNat == 10 || c.toNat == 13 ||
  c.toNat == 11 || c.toNat == 12

/-- Left part of Python `str.strip`: drop leading whitespace. -/
def stripLeftL (l : List Char) : List Char := l.dropWhile pyIsSpace

/-- Right part of Python `str.strip`: drop trailing whitespace. -/
def stripRightL (l : List Char) : List Char := (l.reverse.dropWhile pyIsSpace).reverse

/-- Python `str.strip` on a character list. -/
def pyStripL (l : List Char) : List Char := stripRightL (stripLeftL l)

/-- Python `str.strip` on a string. -/
def pyStrip (s : String) : String := String.mk (pyStripL s.toList)

/-- Python `str.lstrip` on a string. -/
def pyLStrip (s : String) : String := String.mk (s.toList.dropWhile pyIsSpace)

/-- Python `str.lower` per character (ASCII): `Char.toLower` matches Python
on the basic latin range, which is all the repository's data uses. -/
def pyLowerL (l : List Char) : List Char := l.map Char.toLower

/-- Python `str.lower` on a string (ASCII). -/
def strLower (s : String) : String := String.mk (pyLowerL s.toList)

/-- Substring test on character lists: does `sub` occur inside `l`. -/
def listContainsSub : List Char → List Char → Bool
  | l, sub =>
    if sub.isPrefixOf l then true
    else
      match l with
      | [] => false
      | _ :: rest => listContainsSub rest sub

/-- Python `sub in s` substring test. -/
def strContains (s sub : String) : Bool := listContainsSub s.toList sub.toList

/-- Python `s.endswith(t)`. -/
def strEndsWith (s t : String) : Bool := t.toList.isSuffixOf s.toList

/-- Python `s.startswith(t)`. -/
def strStartsWith (s t : String) : Bool := t.toList.isPrefixOf s.toList

/-- Python `s.startswith(c)` for a single character; false on the empty string. -/
def startsWithChar (s : String) (c : Char) : Bool :=
  match s.toList with
  | x :: _ => x == c
  | [] => false

/-- Python `c in s` for a single character. -/
def containsChar (s : String) (c : Char) : Bool := s.toList.any (fun x => x == c)

/-- Python `s.rstrip(c)` for a one-character strip set. -/
def rstripChar (s : String) (c : Char) : String :=
  String.mk ((s.toList.reverse.dropWhile (fun x => x == c)).reverse)

/-- Python `line.rstrip` over a newline/carriage-return strip set. -/
def rstripNewline (s : String) : String :=
  String.mk ((s.toList.reverse.dropWhile (fun c => c == '\n' || c == '\r')).reverse)

/-- Python `or` on two strings: the left operand unless it is falsy (empty). -/
def pyOr (a b : String) : String := if a = "" then b else a

/-- Python `event.get(k) or b`: `None` and the empty string are falsy. -/
def pyOrO (a : Option String) (b : String) : String :=
  match a with
  | none => b
  | some s => if s = "" then b else s

/-- Python truthiness of an optional string. -/
def truthy (o : Option String) : Bool :=
  match o with
  | none => false
  | some s => s ≠ ""

/-- Python `a or b` where both operands are optional strings. -/
def pyOrOpt (a b : Option String) : Option String :=
  match a with
  | none => b
  | some s => if s = "" then b else some s

/-- Python `os.path.basename` on a POSIX host: the part after the last slash. -/
def basename (s : String) : String :=
  String.mk ((s.toList.reverse.takeWhile (fun c => c != '/')).reverse)

/-- Python `s.split(sep)[-1]` for a one-character separator `/`. -/
def lastSplitSlash (s : String) : String :=
  String.mk ((s.toList.reverse.takeWhile (fun c => c != '/')).reverse)

/-! ### Events -/

/-- A parsed event: an ordered string-to-string mapping, modelling a Python
dict with insertion order. -/
abbrev Event := List (String × String)

/-- Python `event.get(k)`. -/
def getv (e : Event) (k : String) : Option String :=
  (e.find? (fun kv => kv.1 == k)).map (fun kv => kv.2)

/-- Python `event.get(k, d)`. -/
def getD (e : Event) (k d : String) : String := (getv e k).getD d

/-- Python `k in event`. -/
def hasKey (e : Event) (k : String) : Bool := (getv e k).isSome

/-- Python `event[k] = v`: update in place, preserving insertion order,
appending when the key is new. -/
def setv : Event → String → String → Event
  | [], k, v => [(k, v)]
  | kv :: rest, k, v => if kv.1 = k then (k, v) :: rest else kv :: setv rest k v

/-! ### graph/entities.py: node and edge construction -/

/-- Attributes attached to a graph node by `_node`. -/
structure NodeAttrs where
  entity_type : String
  label : String
  full_value : String
deriving DecidableEq

/-- Attributes attached to a graph edge by `_edge`. -/
structure EdgeAttrs where
  label : String
  relation : String
deriving DecidableEq

/-- A node as returned by `_node`: identifier plus attributes. -/
abbrev Node := String × NodeAttrs

/-- An edge as returned by `_edge`: source id, destination id, attributes. -/
abbrev Edge := String × String × EdgeAttrs

/-- Display label from `_short_label`: basename for path-like entity types,
else the value truncated past 50 characters. -/
def shortLabel (value : String) (etype : String) : String :=
  if etype = "process" ∨ etype = "file" ∨ etype = "driver" then
    let name := basename (rstripChar (rstripChar (pyStrip value) '\\') '/')
    if name = "" then String.mk (value.toList.take 40) else name
  else if value.length > 50 then String.mk (value.toList.take 47) ++ "..." else value

/-- Normalisation pipeline of `_node` on the character list of the value:
`value.strip().lower().replace` of doubled backslashes by single ones.
`collapseDD` is the left-to-right non-overlapping replacement. -/
def collapseDD : List Char → List Char
  | [] => []
  | c :: rest =>
    match rest with
    | [] => [c]
    | c2 :: rest2 =>
      if c = '\\' ∧ c2 = '\\' then '\\' :: collapseDD rest2
      else c :: collapseDD (c2 :: rest2)

/-- Full value normalisation used for node identity. -/
def pyNormalizeL (l : List Char) : List Char := collapseDD (pyLowerL (pyStripL l))

/-- Embedding of `_node`: rejects empty and sentinel values, builds the node
id from the entity type and the normalised value. -/
def nodeOf (etype value : String) (label : Option String) : Option Node :=
  if value = "" ∨ value = "-" ∨ value = "NOT_TRANSLATED" then none
  else
    let normalized := String.mk (pyNormalizeL value.toList)
    let nodeId := etype ++ "::" ++ normalized
    let short := pyOrO label (shortLabel value etype)
    some (nodeId, NodeAttrs.mk etype short (pyStrip value))

/-- Embedding of `_edge`. -/
def edgeOf (src dst label relation : String) : Option Edge :=
  if src = "" ∨ dst = "" then none
  else some (src, dst, EdgeAttrs.mk label relation)

/-- Singleton-or-empty list used for the `if n: nodes.append(n)` idiom. -/
def optList (o : Option Node) : List Node :=
  match o with
  | some n => [n]
  | none => []

/-! ### graph/entities.py: `_extract_field` (regex `name\s*[:=]\s*(.+)`,
case-insensitive `search`) -/

/-- Case-insensitive literal match of `p` at the head of `l`, returning the
remainder on success. -/
def startsWithCI : List Char → List Char → Option (List Char)
  | rest, [] => some rest
  | [], _ :: _ => none
  | c :: cs, p :: ps =>
    if Char.toLower c == Char.toLower p then startsWithCI cs ps else none

/-- Attempt the field pattern at one position: the field name, optional
whitespace, a colon or equals sign, optional whitespace, then a non-empty
rest-of-line capture which is finally stripped.  When the line ends in
whitespace only, the regex backtracks into the whitespace run and the
stripped capture is empty. -/
def matchFieldAt (chars : List Char) (fname : List Char) : Option String :=
  match startsWithCI chars fname with
  | none => none
  | some r1 =>
    match r1.dropWhile pyIsSpace with
    | [] => none
    | c :: r3 =>
      if c == ':' || c == '=' then
        let ws := r3.takeWhile pyIsSpace
        let rem := r3.dropWhile pyIsSpace
        match rem with
        | [] => if ws.any (fun w => w != '\n') then some "" else none
        | _ :: _ => some (String.mk (pyStripL (rem.takeWhile (fun x => x != '\n'))))
      else none

/-- Scan of `re.search`: try the pattern at every start position. -/
def extractFieldAux : List Char → List Char → Option String
  | [], _ => none
  | c :: rest, fname =>
    match matchFieldAt (c :: rest) fname with
    | some v => some v
    | none => extractFieldAux rest fname

/-- Embedding of `_extract_field`. -/
def extractField (message : String) (fieldName : String) : Option String :=
  if message = "" then none
  else extractFieldAux message.toList fieldName.toList

/-! ### graph/entities.py: per-format extraction rules -/

/-- Embedding of `_extract_sysmon`. -/
def extractSysmon (event : Event) : List Node × List (Option Edge) :=
  let eid := getD event "EventID" ""
  let computer := getD event "Computer" ""
  let host_node := nodeOf "host" computer none
  let nodes0 := optList host_node
  if eid = "1" then
    let img_node := nodeOf "process" (getD event "Image" "") none
    let par_node := nodeOf "process" (getD event "ParentImage" "") none
    let usr_node := nodeOf "user" (getD event "User" "") none
    let nodes := nodes0 ++ optList img_node ++ optList par_node ++ optList usr_node
    let e1 := match par_node, img_node with
      | some p, some i => [edgeOf p.1 i.1 "spawned" "process_creation"]
      | _, _ => []
    let e2 := match usr_node, img_node with
      | some u, some i => [edgeOf u.1 i.1 "ran" "execution"]
      | _, _ => []
    let e3 := match img_node, host_node with
      | some i, some h => [edgeOf i.1 h.1 "on" "host_activity"]
      | _, _ => []
    (nodes, e1 ++ e2 ++ e3)
  else if eid = "3" then
    let dst_port := getD event "DestinationPort" ""
    let img_node := nodeOf "process" (getD event "Image" "") none
    let src_node := nodeOf "ip" (getD event "SourceIp" "") none
    let dst_node := nodeOf "ip" (getD event "DestinationIp" "") none
    let nodes := nodes0 ++ optList img_node ++ optList src_node ++ optList dst_node
    let e1 := match img_node, dst_node with
      | some i, some d =>
        let lab := if dst_port ≠ "" then "connected:" ++ dst_port else "connected"
        [edgeOf i.1 d.1 lab "network"]
      | _, _ => []
    let e2 := match src_node, img_node with
      | some s, some i => [edgeOf s.1 i.1 "source" "network"]
      | _, _ => []
    (nodes, e1 ++ e2)
  else if eid = "6" then
    let drv_node := nodeOf "driver" (getD event "ImageLoaded" "") none
    let nodes := nodes0 ++ optList drv_node
    let e1 := match host_node, drv_node with
      | some h, some d => [edgeOf h.1 d.1 "loaded_driver" "driver_load"]
      | _, _ => []
    (nodes, e1)
  else if eid = "7" then
    let img_node := nodeOf "process" (getD event "Image" "") none
    let file_node := nodeOf "file" (getD event "ImageLoaded" "") none
    let nodes := nodes0 ++ optList img_node ++ optList file_node
    let e1 := match img_node, file_node with
      | some i, some f => [edgeOf i.1 f.1 "loaded" "image_load"]
      | _, _ => []
    (nodes, e1)
  else if eid = "8" ∨ eid = "10" then
    let src_node := nodeOf "process" (getD event "SourceImage" "") none
    let tgt_node := nodeOf "process" (getD event "TargetImage" "") none
    let nodes := nodes0 ++ optList src_node ++ optList tgt_node
    let lab := if eid = "8" then "injected_into" else "accessed"
    let e1 := match src_node, tgt_node with
      | some s, some t => [edgeOf s.1 t.1 lab "process_interaction"]
      | _, _ => []
    (nodes, e1)
  else if eid = "11" then
    let img_node := nodeOf "process" (getD event "Image" "") none
    let file_node := nodeOf "file" (getD event "TargetFilename" "") none
    let nodes := nodes0 ++ optList img_node ++ optList file_node
    let e1 := match img_node, file_node with
      | some i, some f => [edgeOf i.1 f.1 "created_file" "file_creation"]
      | _, _ => []
    (nodes, e1)
  else if eid = "12" ∨ eid = "13" ∨ eid = "14" then
    let img_node := nodeOf "process" (getD event "Image" "") none
    let reg_node := nodeOf "registry" (getD event "TargetObject" "") none
    let nodes := nodes0 ++ optList img_node ++ optList reg_node
    let e1 := match img_node, reg_node with
      | some i, some r => [edgeOf i.1 r.1 "modified_registry" "registry"]
      | _, _ => []
    (nodes, e1)
  else if eid = "22" then
    let img_node := nodeOf "process" (getD event "Image" "") none
    let dns_node := nodeOf "dns" (getD event "QueryName" "") none
    let nodes := nodes0 ++ optList img_node ++ optList dns_node
    let e1 := match img_node, dns_node with
      | some i, some d => [edgeOf i.1 d.1 "dns_query" "dns"]
      | _, _ => []
    (nodes, e1)
  else
    let image := getD event "Image" ""
    let user := getD event "User" ""
    let img_node := if image ≠ "" then nodeOf "process" image none else none
    let usr_node := if user ≠ "" then nodeOf "user" user none else none
    let nodes := nodes0 ++ optList img_node ++ optList usr_node
    let e1 := match img_node, host_node with
      | some i, some h => [edgeOf i.1 h.1 ("event_" ++ eid) "activity"]
      | _, _ => []
    let e2 := match usr_node, img_node with
      | some u, some i => [edgeOf u.1 i.1 "associated" "user_activity"]
      | _, _ => []
    (nodes, e1 ++ e2)

/-- Embedding of `_extract_keyvalue`. -/
def extractKeyvalue (event : Event) : List Node × List (Option Edge) :=
  let computer := getD event "ComputerName" ""
  let user := getD event "User" ""
  let event_code := getD event "EventCode" ""
  let host_node := nodeOf "host" computer none
  let usr_node := nodeOf "user" user none
  let nodes0 := optList host_node ++ optList usr_node
  if event_code = "7045" then
    let msg := getD event "Message" ""
    let svc_name := extractField msg "Service Name"
    let svc_file := extractField msg "Service File Name"
    let svc_node := if truthy svc_name then nodeOf "service" (svc_name.getD "") none else none
    let file_node := if truthy svc_file then nodeOf "file" (svc_file.getD "") none else none
    let nodes := nodes0 ++ optList svc_node ++ optList file_node
    let e1 := match host_node, svc_node with
      | some h, some s => [edgeOf h.1 s.1 "installed_service" "service_install"]
      | _, _ => []
    let e2 := match svc_node, file_node with
      | some s, some f => [edgeOf s.1 f.1 "image_path" "service_binary"]
      | _, _ => []
    (nodes, e1 ++ e2)
  else if event_code = "4688" ∨ event_code = "592" then
    let msg := getD event "Message" ""
    let new_proc := pyOrOpt (extractField msg "New Process Name") (extractField msg "Process Name")
    let parent := pyOrOpt (extractField msg "Creator Process Name") (extractField msg "Parent Process Name")
    let proc_node := if truthy new_proc then nodeOf "process" (new_proc.getD "") none else none
    let par_node := if truthy parent then nodeOf "process" (parent.getD "") none else none
    let nodes := nodes0 ++ optList proc_node ++ optList par_node
    let e1 := match par_node, proc_node with
      | some p, some q => [edgeOf p.1 q.1 "spawned" "process_creation"]
      | _, _ => []
    let e2 := match usr_node, proc_node with
      | some u, some q => [edgeOf u.1 q.1 "ran" "execution"]
      | _, _ => []
    (nodes, e1 ++ e2)
  else if event_code = "4624" ∨ event_code = "4625" then
    let msg := getD event "Message" ""
    let ip := extractField msg "Source Network Address"
    let ip_node := if truthy ip then nodeOf "ip" (ip.getD "") none else none
    let nodes := nodes0 ++ optList ip_node
    let lab := if event_code = "4624" then "logged_on" else "failed_logon"
    let e1 := match usr_node, host_node with
      | some u, some h => [edgeOf u.1 h.1 lab "authentication"]
      | _, _ => []
    let e2 := match ip_node, host_node with
      | some i, some h => [edgeOf i.1 h.1 "logon_source" "network"]
      | _, _ => []
    (nodes, e1 ++ e2)
  else if event_code = "4104" then
    let e1 := match usr_node, host_node with
      | some u, some h => [edgeOf u.1 h.1 "executed_script" "script_execution"]
      | _, _ => []
    (nodes0, e1)
  else
    let e1 := match usr_node, host_node with
      | some u, some h => [edgeOf u.1 h.1 ("event_" ++ event_code) "activity"]
      | _, _ => []
    (nodes0, e1)

/-- Embedding of `_extract_json`.  The `user_name` expression reproduces the
source's operator precedence exactly: the conditional expression on
`userIdentity.arn` binds looser than the `or` chains, so the
`userIdentity.userName` lookup is only reachable when an `arn` is present. -/
def extractJson (event : Event) : List Node × List (Option Edge) :=
  let arn := getv event "userIdentity.arn"
  let user_name :=
    if truthy arn then
      pyOrO (getv event "userIdentity.userName")
        (lastSplitSlash (getD event "userIdentity.arn" ""))
    else
      pyOr ""
        (pyOr (getD event "userIdentity.principalId" "")
          (pyOr (getD event "user.username" "")
            (pyOr (getD event "userName" "")
              (pyOr (getD event "actor.email" "") "unknown"))))
  let usr_node :=
    if user_name ≠ "" ∧ user_name ≠ "unknown" then nodeOf "user" user_name none else none
  let nodes1 := optList usr_node
  let src_ip :=
    pyOrO (getv event "sourceIPAddress")
      (pyOrO (getv event "sourceIPs[0]") (getD event "source.ip" ""))
  let ip_node := if src_ip ≠ "" then nodeOf "ip" src_ip none else none
  let nodes2 := nodes1 ++ optList ip_node
  let edges1 := match ip_node, usr_node with
    | some i, some u => [edgeOf u.1 i.1 "from_ip" "source"]
    | _, _ => []
  let event_name :=
    pyOrO (getv event "eventName") (pyOrO (getv event "verb") (getD event "operation" ""))
  let (nodes4, edges23) :=
    if event_name ≠ "" then
      let api_node := nodeOf "api_call" event_name none
      let nodes3 := nodes2 ++ optList api_node
      let edges2 := match api_node, usr_node with
        | some a, some u => [edgeOf u.1 a.1 "called" "api_call"]
        | _, _ => []
      let target :=
        pyOrO (getv event "requestParameters.userName")
          (pyOrO (getv event "requestParameters.bucketName")
            (pyOrO (getv event "requestParameters.instanceId")
              (pyOrO (getv event "objectRef.resource") (getD event "requestURI" ""))))
      if target ≠ "" then
        match nodeOf "resource" target none with
        | some res =>
          match api_node with
          | some a => (nodes3 ++ [res], edges2 ++ [edgeOf a.1 res.1 "on_resource" "target"])
          | none => (nodes3 ++ [res], edges2)  -- the source would raise here (api_node is None)
        | none => (nodes3, edges2)
      else (nodes3, edges2)
    else (nodes2, [])
  let account := pyOr (getD event "recipientAccountId" "") (getD event "accountId" "")
  let region := getD event "awsRegion" ""
  let host_nodes :=
    if account ≠ "" then
      optList (nodeOf "host" (if region ≠ "" then account ++ "/" ++ region else account) none)
    else []
  (nodes4 ++ host_nodes, edges1 ++ edges23)

/-- Embedding of `_extract_exchange`. -/
def extractExchange (event : Event) : List Node × List (Option Edge) :=
  let client_ip := getD event "client_ip" ""
  let server_ip := getD event "server_ip" ""
  let username := getD event "username" ""
  let method := getD event "method" ""
  let uri := getD event "uri_stem" ""
  let status := getD event "protocol_status" ""
  let cli_node := if client_ip ≠ "" then nodeOf "ip" client_ip none else none
  let srv_node :=
    if server_ip ≠ "" then nodeOf "ip" server_ip (some ("server:" ++ server_ip)) else none
  let usr_node := if username ≠ "" then nodeOf "user" username none else none
  let nodes0 := optList cli_node ++ optList srv_node ++ optList usr_node
  let (nodes1, edges1) :=
    if method ≠ "" ∧ uri ≠ "" then
      let resource := method ++ " " ++ uri
      match nodeOf "resource" resource none with
      | some res =>
        let e1 := match cli_node with
          | some c =>
            let lab := if status ≠ "" then method ++ " (" ++ status ++ ")" else method
            [edgeOf c.1 res.1 lab "http_request"]
          | none => []
        let e2 := match srv_node with
          | some s => [edgeOf res.1 s.1 "served_by" "server"]
          | none => []
        (nodes0 ++ [res], e1 ++ e2)
      | none => (nodes0, [])
    else (nodes0, [])
  let edges2 := match usr_node, cli_node with
    | some u, some c => [edgeOf u.1 c.1 "from" "user_source"]
    | _, _ => []
  (nodes1, edges1 ++ edges2)

/-- Embedding of `extract_entities_and_edges`: dispatch on the format kind. -/
def extractEntitiesAndEdges (event : Event) (formatType : String) : List Node × List (Option Edge) :=
  if formatType = "xml_sysmon" then extractSysmon event
  else if formatType = "keyvalue" then extractKeyvalue event
  else if formatType = "json" then extractJson event
  else if formatType = "exchange" then extractExchange event
  else ([], [])

/-! ### parsers/keyvalue.py -/

/-- Consume exactly `n` decimal digits. -/
def takeDigitsN : Nat → List Char → Option (List Char)
  | 0, l => some l
  | n + 1, c :: l => if c.isDigit then takeDigitsN n l else none
  | _ + 1, [] => none

/-- Consume one expected character. -/
def takeChar (c : Char) : List Char → Option (List Char)
  | x :: l => if x == c then some l else none
  | [] => none

/-- Consume a non-empty whitespace run (`\s+`); greedy, which is exact here
because no following pattern element matches whitespace. -/
def takeSpaces1 : List Char → Option (List Char)
  | c :: l => if pyIsSpace c then some (l.dropWhile pyIsSpace) else none
  | [] => none

/-- Consume one or two digits (`\d{1,2}`); greedy, exact because the next
pattern element is a colon. -/
def takeDigits1or2 : List Char → Option (List Char)
  | c :: l =>
    if c.isDigit then
      match l with
      | d :: l2 => if d.isDigit then some l2 else some l
      | [] => some []
    else none
  | [] => none

/-- Embedding of `TIMESTAMP_RE`: a full-line match of
`\d{2}/\d{2}/\d{4}\s+\d{1,2}:\d{2}:\d{2}\s+(AM|PM)`. -/
def matchKvTimestamp (s : String) : Bool :=
  let step : Option (List Char) := do
    let l ← takeDigitsN 2 s.toList
    let l ← takeChar '/' l
    let l ← takeDigitsN 2 l
    let l ← takeChar '/' l
    let l ← takeDigitsN 4 l
    let l ← takeSpaces1 l
    let l ← takeDigits1or2 l
    let l ← takeChar ':' l
    let l ← takeDigitsN 2 l
    let l ← takeChar ':' l
    let l ← takeDigitsN 2 l
    let l ← takeSpaces1 l
    match l with
    | 'A' :: 'M' :: r => some r
    | 'P' :: 'M' :: r => some r
    | _ => none
  match step with
  | some [] => true
  | _ => false

/-- Embedding of `_is_valid_key` (`^[A-Za-z_][A-Za-z0-9_ ]*$`). -/
def isValidKey (s : String) : Bool :=
  match s.toList with
  | [] => false
  | c :: rest =>
    (c.isAlpha || c == '_') && rest.all (fun x => x.isAlphanum || x == '_' || x == ' ')

/-- Python `line.partition` at the first equals sign: (before, after); when
no equals sign exists the whole line is the before part. -/
def partitionEq : List Char → List Char × List Char
  | [] => ([], [])
  | c :: rest =>
    if c == '=' then ([], rest)
    else
      let p := partitionEq rest
      (c :: p.1, p.2)

/-- Embedding of `_finalize_event`: strip the Message in place and attach a
preview when the unstripped Message exceeds 500 characters. -/
def finalizeEvent (e : Event) : Event :=
  let msg := getD e "Message" ""
  if msg ≠ "" then
    let e1 := setv e "Message" (pyStrip msg)
    if msg.length > 500 then
      setv e1 "MessagePreview" (String.mk (msg.toList.take 500) ++ "...")
    else e1
  else e

/-- Parser state of `parse_keyvalue_events`: accumulated events, the current
event under construction (empty list plays Python's empty dict), the last
assigned key, and the multi-line Message flag. -/
structure KvState where
  events : List Event
  current : Event
  currentKey : Option String
  inMessage : Bool

/-- The line loop of `parse_keyvalue_events`, including the early return
when the max-event cap is reached on flushing and the final flush at end of
file. -/
def parseKeyvalueAux (maxEvents : Nat) : List String → KvState → List Event
  | [], st =>
    if st.current ≠ [] then st.events ++ [finalizeEvent st.current] else st.events
  | rawLine :: rest, st =>
    let line := rstripNewline rawLine
    if matchKvTimestamp (pyStrip line) then
      if st.current ≠ [] then
        let events := st.events ++ [finalizeEvent st.current]
        if maxEvents ≠ 0 ∧ events.length ≥ maxEvents then events
        else
          parseKeyvalueAux maxEvents rest
            (KvState.mk events [("Timestamp", pyStrip line)] none false)
      else
        parseKeyvalueAux maxEvents rest
          (KvState.mk st.events [("Timestamp", pyStrip line)] none false)
    else if st.current = [] then parseKeyvalueAux maxEvents rest st
    else
      let tryKv : Option KvState :=
        if ¬ st.inMessage ∧ containsChar line '=' ∧
            ¬ startsWithChar line ' ' ∧ ¬ startsWithChar line '\t' then
          let p := partitionEq line.toList
          let key := pyStrip (String.mk p.1)
          let value := String.mk p.2
          if key ≠ "" ∧ isValidKey key then
            some (KvState.mk st.events (setv st.current key (pyStrip value))
              (some key) (key == "Message"))
          else none
        else none
      match tryKv with
      | some st2 => parseKeyvalueAux maxEvents rest st2
      | none =>
        if st.inMessage ∧ st.currentKey = some "Message" then
          let st2 := KvState.mk st.events
            (setv st.current "Message" (getD st.current "Message" "" ++ "\n" ++ line))
            st.currentKey st.inMessage
          parseKeyvalueAux maxEvents rest st2
        else if truthy st.currentKey ∧ pyStrip line ≠ "" then
          let k := st.currentKey.getD ""
          let st2 := KvState.mk st.events
            (setv st.current k (getD st.current k "" ++ "\n" ++ line))
            st.currentKey st.inMessage
          parseKeyvalueAux maxEvents rest st2
        else parseKeyvalueAux maxEvents rest st

/-- Embedding of `parse_keyvalue_events` over the file's lines. -/
def parseKeyvalueEvents (lines : List String) (maxEvents : Nat) : List Event :=
  parseKeyvalueAux maxEvents lines (KvState.mk [] [] none false)

/-! ### parsers/json_logs.py -/

/-- Decoded JSON values, the result of `json.loads`. -/
inductive JVal where
  | jstr : String → JVal
  | jnum : Int → JVal
  | jbool : Bool → JVal
  | jnull : JVal
  | jarr : List JVal → JVal
  | jobj : List (String × JVal) → JVal

/-- A single quote character, used by Python `repr` of strings. -/
def sqChar : Char := Char.ofNat 39

/-- Single-quote string. -/
def sqS : String := String.singleton sqChar

/-- Comma-space join, as Python renders list and dict items. -/
def commaJoin : List String → String
  | [] => ""
  | [s] => s
  | s :: rest => s ++ ", " ++ commaJoin rest

mutual

/-- Python `repr` of a decoded JSON value (used by `str` on containers). -/
def pyRepr : JVal → String
  | .jstr s => sqS ++ s ++ sqS
  | .jnum n => toString n
  | .jbool b => if b then "True" else "False"
  | .jnull => "None"
  | .jarr items => "[" ++ commaJoin (pyReprList items) ++ "]"
  | .jobj fields => "\x7b" ++ commaJoin (pyReprFields fields) ++ "\x7d"

/-- List of item representations. -/
def pyReprList : List JVal → List String
  | [] => []
  | v :: rest => pyRepr v :: pyReprList rest

/-- List of dict item representations. -/
def pyReprFields : List (String × JVal) → List String
  | [] => []
  | (k, v) :: rest => (sqS ++ k ++ sqS ++ ": " ++ pyRepr v) :: pyReprFields rest

end

/-- Python `str` of a decoded JSON value. -/
def pyStr : JVal → String
  | .jstr s => s
  | .jbool b => if b then "True" else "False"
  | .jnum n => toString n
  | .jnull => "None"
  | v => pyRepr v

/-- Python `str(obj) if obj is not None else ''` from the flattener. -/
def pyStrOrEmpty : JVal → String
  | .jnull => ""
  | v => pyStr v

/-- Key joining of `_flatten_recursive`. -/
def joinKey (pfx k : String) : String := if pfx = "" then k else pfx ++ "." ++ k

/-- Embedding of `_flatten_recursive`; the first argument is the remaining
depth (`max_depth - depth`, 3 at the top).  At depth zero the value is
stringified; dicts recurse per key; arrays of at most five elements recurse
per index, longer arrays are stringified whole. -/
def flattenRec : Nat → JVal → String → List (String × String)
  | 0, v, pfx => [(pfx, pyStrOrEmpty v)]
  | r + 1, .jobj fields, pfx =>
    (fields.map (fun kv => flattenRec r kv.2 (joinKey pfx kv.1))).flatten
  | r + 1, .jarr items, pfx =>
    if items.length ≤ 5 then
      (items.enum.map (fun xi =>
        flattenRec r xi.2 (pfx ++ "[" ++ toString xi.1 ++ "]"))).flatten
    else [(pfx, pyStr (.jarr items))]
  | _ + 1, v, pfx => [(pfx, pyStrOrEmpty v)]

/-- Embedding of `_flatten_json`: the recursion writes into one dict, so the
produced pairs are folded with dict update semantics. -/
def flattenJson (obj : JVal) : Event :=
  (flattenRec 3 obj "").foldl (fun e kv => setv e kv.1 kv.2) []

/-- Loop body of the JSON-array branch of `parse_json_events`: dict items
are flattened and appended, other items skipped, stopping once the cap is
reached. -/
def parseJsonArrayAux (maxEvents : Nat) : List JVal → List Event → List Event
  | [], acc => acc
  | item :: rest, acc =>
    match item with
    | .jobj fields =>
      let acc2 := acc ++ [flattenJson (.jobj fields)]
      if maxEvents ≠ 0 ∧ acc2.length ≥ maxEvents then acc2
      else parseJsonArrayAux maxEvents rest acc2
    | _ => parseJsonArrayAux maxEvents rest acc

/-- Embedding of the JSON-array branch of `parse_json_events` (lines 14 to
25), taking the successfully decoded content; a decoded non-list yields no
events, matching the `isinstance` guard. -/
def parseJsonArray (data : JVal) (maxEvents : Nat) : List Event :=
  match data with
  | .jarr items => parseJsonArrayAux maxEvents items []
  | _ => []

/-! ### parsers/detect.py -/

/-- Opening-brace character, written via its code point. -/
def lbraceChar : Char := Char.ofNat 123

/-- Prefix match of the IIS timestamp regex
`\d{4}-\d{2}-\d{2}\s+\d{2}:\d{2}:\d{2}` as used by `re.match`. -/
def matchIsoTimestamp (s : String) : Bool :=
  (do
    let l ← takeDigitsN 4 s.toList
    let l ← takeChar '-' l
    let l ← takeDigitsN 2 l
    let l ← takeChar '-' l
    let l ← takeDigitsN 2 l
    let l ← takeSpaces1 l
    let l ← takeDigitsN 2 l
    let l ← takeChar ':' l
    let l ← takeDigitsN 2 l
    let l ← takeChar ':' l
    let l ← takeDigitsN 2 l
    pure l).isSome

/-- Embedding of `detect_format`.  The file system is abstracted as the
optional readable content (`none` when `open` or `read` raises); reads of
500 or 1000 characters are prefixes of that content.  A recognised
sourcetype hint short-circuits before any read; a `.json` extension answers
`json` even when the file is unreadable, matching the `except` clause. -/
def detectFormat (path : String) (hint : Option String) (content : Option String) : String :=
  let hintResult : Option String :=
    match hint with
    | some h =>
      if h ≠ "" then
        let st := strLower h
        if strContains st "xmlwineventlog" || strContains st "sysmon" then some "xml_sysmon"
        else if strContains st "json" || strContains st "cloudtrail" then some "json"
        else none
      else none
    | none => none
  match hintResult with
  | some r => r
  | none =>
    let jsonBranch : Option String :=
      if strEndsWith (strLower path) ".json" then
        match content with
        | none => some "json"
        | some c =>
          let head := pyLStrip (String.mk (c.toList.take 500))
          if startsWithChar head lbraceChar || startsWithChar head '[' then some "json"
          else if matchIsoTimestamp head then some "exchange"
          else none
      else none
    match jsonBranch with
    | some r => r
    | none =>
      match content with
      | none => "unknown"
      | some c =>
        let head := pyLStrip (String.mk (c.toList.take 1000))
        if strStartsWith head "<Event" then "xml_sysmon"
        else if startsWithChar head lbraceChar then "json"
        else if startsWithChar head '[' then "json"
        else if strContains head "LogName=" ∧ strContains head "EventCode=" then "keyvalue"
        else if matchIsoTimestamp head then "exchange"
        else if containsChar head '=' ∧ containsChar head '\n' then
          let linesWithEq := ((head.splitOn "\n").filter (fun ln => containsChar ln '=')).length
          if linesWithEq ≥ 3 then "keyvalue" else "unknown"
        else "unknown"

/-! ### graph/builder.py: `build_graph` -/

/-- Accumulated graph: node id to attributes and occurrence count, edge key
(source, destination) to attributes and weight.  First-seen attributes win;
repeats only increment the count or weight. -/
structure GraphAcc where
  nodes : String → Option (NodeAttrs × Nat)
  edges : String × String → Option (EdgeAttrs × Nat)

/-- The empty graph. -/
def emptyGraph : GraphAcc := GraphAcc.mk (fun _ => none) (fun _ => none)

/-- Node insertion of `build_graph`: increment the count when present, else
insert with count 1. -/
def addNode (g : GraphAcc) (n : Node) : GraphAcc :=
  match g.nodes n.1 with
  | some (a, c) =>
    GraphAcc.mk (fun i => if i = n.1 then some (a, c + 1) else g.nodes i) g.edges
  | none =>
    GraphAcc.mk (fun i => if i = n.1 then some (n.2, 1) else g.nodes i) g.edges

/-- Edge insertion of `build_graph`: increment the weight when present, else
insert with weight 1. -/
def addEdge (g : GraphAcc) (e : Edge) : GraphAcc :=
  let key := (e.1, e.2.1)
  match g.edges key with
  | some (a, w) =>
    GraphAcc.mk g.nodes (fun k => if k = key then some (a, w + 1) else g.edges k)
  | none =>
    GraphAcc.mk g.nodes (fun k => if k = key then some (e.2.2, 1) else g.edges k)

/-- The `if edge_tuple is None: continue` guard. -/
def addEdgeOpt (g : GraphAcc) (e : Option Edge) : GraphAcc :=
  match e with
  | none => g
  | some ed => addEdge g ed

/-- The allow-list guard of `build_graph`: skip when the list is truthy
(non-empty) and the event's EventID value (default empty) is not in it. -/
def skipEvent (allowed : List String) (e : Event) : Bool :=
  !allowed.isEmpty && !(allowed.contains (getD e "EventID" ""))

/-- Per-event body of `build_graph`. -/
def processEvent (fmt : String) (allowed : List String) (g : GraphAcc) (e : Event) : GraphAcc :=
  if skipEvent allowed e then g
  else
    let ne := extractEntitiesAndEdges e fmt
    let g1 := ne.1.foldl addNode g
    ne.2.foldl addEdgeOpt g1

/-- Embedding of `build_graph`; the empty allow-list plays Python's `None`
default (both are falsy). -/
def buildGraph (events : List Event) (fmt : String) (allowed : List String) : GraphAcc :=
  events.foldl (processEvent fmt allowed) emptyGraph

/-- Occurrence count of a node id in the built graph (0 when absent). -/
def nodeCountOf (g : GraphAcc) (id : String) : Nat :=
  match g.nodes id with
  | some (_, c) => c
  | none => 0

/-- Weight of an edge key in the built graph (0 when absent). -/
def edgeWeightOf (g : GraphAcc) (k : String × String) : Nat :=
  match g.edges k with
  | some (_, w) => w
  | none => 0

/-- Number of occurrences of a node id contributed by one event: zero when
the allow-list skips it, else its multiplicity among the extracted nodes. -/
def eventNodeOcc (fmt : String) (allowed : List String) (id : String) (e : Event) : Nat :=
  if skipEvent allowed e then 0
  else ((extractEntitiesAndEdges e fmt).1.map Prod.fst).count id

/-- The (source, destination) key of an edge. -/
def edgeKeyOf (ed : Edge) : String × String := (ed.1, ed.2.1)

/-- Number of occurrences of an edge key contributed by one event among its
non-null extracted edges. -/
def eventEdgeOcc (fmt : String) (allowed : List String) (k : String × String) (e : Event) : Nat :=
  if skipEvent allowed e then 0
  else ((extractEntitiesAndEdges e fmt).2.filterMap (fun oe => oe.map edgeKeyOf)).count k

/-! ### data/loader.py: `load_file` -/

/-- Result record of `load_file`. -/
structure LoadResult where
  events : List Event
  format : String
  total_estimated : Int
  loaded : Nat
  truncated : Bool
  file_size : Nat
  error : Option String
deriving DecidableEq

/-- The 5 MB size threshold `MAX_FILE_SIZE`. -/
def MAX_FILE_SIZE : Nat := 5 * 1024 * 1024

/-- Formats present in `PARSER_MAP`. -/
def parserKnown (fmt : String) : Bool :=
  fmt = "xml_sysmon" || fmt = "keyvalue" || fmt = "json" || fmt = "exchange"

/-- Common cap behaviour of the four parsers: with limit 0 the full event
sequence is produced, otherwise parsing stops once `limit` events are
collected, yielding the first `limit` events. -/
def runParser (allEvents : List Event) (limit : Nat) : List Event :=
  if limit = 0 then allEvents else allEvents.take limit

/-- Fuel-driven floor of the base-2 logarithm, written structurally so the
kernel can evaluate it on literals. -/
def log2fuel : Nat → Nat → Nat
  | 0, _ => 0
  | f + 1, n => if 2 ≤ n then log2fuel f (n / 2) + 1 else 0

/-- Floor of the base-2 logarithm (0 below 2). -/
def natLog2 (n : Nat) : Nat := log2fuel n n

/-- Correctly rounded IEEE-754 binary64 value of the ratio a/b for
a, b ≥ 1 (round to nearest, ties to even), returned as a pair (m, s) whose
value is m / 2 ^ s.  The exponent is the floor of the base-2 logarithm of
the ratio, the mantissa is the 53-bit half-even rounding of the scaled
ratio.  Exact on the normal range, which covers every file size and event
count the loader can see; overflow and subnormals are out of reach there. -/
def roundFloat (a b : Nat) : Nat × Int :=
  let e : Int :=
    if b ≤ a then (natLog2 (a / b) : Int)
    else
      let k := natLog2 (b / a)
      if a * 2 ^ k = b then -(k : Int) else -((k : Int) + 1)
  let s : Int := 52 - e
  let A := if 0 ≤ s then a * 2 ^ s.toNat else a
  let B := if 0 ≤ s then b else b * 2 ^ (-s).toNat
  let m0 := A / B
  let r := A % B
  let m :=
    if B < 2 * r then m0 + 1
    else if 2 * r < B then m0
    else if m0 % 2 = 0 then m0 else m0 + 1
  (m, s)

/-- Correctly rounded binary64 quotient of two binary64 values: the exact
ratio (m1 / 2 ^ s1) / (m2 / 2 ^ s2) re-rounded to 53 bits. -/
def divFloat (x y : Nat × Int) : Nat × Int :=
  let d := y.2 - x.2
  if 0 ≤ d then roundFloat (x.1 * 2 ^ d.toNat) y.1
  else roundFloat x.1 (y.1 * 2 ^ (-d).toNat)

/-- Python `int()` of a non-negative binary64 value: truncation. -/
def truncFloat (x : Nat × Int) : Nat :=
  if 0 ≤ x.2 then x.1 / 2 ^ x.2.toNat else x.1 * 2 ^ (-x.2).toNat

/-- Comparison of a binary64 value against 1; a negative scale with the
mantissa a `roundFloat` of positive inputs means a value of at least 1. -/
def floatGeOne (x : Nat × Int) : Bool :=
  if 0 ≤ x.2 then 2 ^ x.2.toNat ≤ x.1 else true

/-- The loader's truncation estimate
`int(file_size / max(file_size / max(loaded, 1), 1))` computed exactly as
CPython evaluates it: true division of two integers is the correctly
rounded binary64 of the exact ratio, an integer operand of a mixed
integer-by-float division is first converted to binary64 (a division by 1),
and `int()` truncates the result.  Because of the intermediate rounding
this is not always `loaded`: at file_size 5242881 with 2000 loaded events
it yields 1999. -/
def pyTotalEstimate (fileSize loaded : Nat) : Nat :=
  let avg := roundFloat fileSize (max loaded 1)
  if floatGeOne avg then truncFloat (divFloat (roundFloat fileSize 1) avg)
  else truncFloat (roundFloat fileSize 1)

/-- Embedding of `load_file`.  The file is abstracted by its existence flag,
size, readable content for detection, and the full event sequence its
parser would produce without a cap. -/
def loadFile (path : String) (hint : Option String) (content : Option String)
    (isFile : Bool) (fileSize : Nat) (allEvents : List Event) (maxEvents : Nat) : LoadResult :=
  if ¬ isFile then
    LoadResult.mk [] "unknown" 0 0 false 0 (some ("File not found: " ++ path))
  else
    let fmt := detectFormat path hint content
    if ¬ parserKnown fmt then
      LoadResult.mk [] fmt 0 0 false fileSize (some ("No parser for format: " ++ fmt))
    else
      let applyLimit := fileSize > MAX_FILE_SIZE
      let limit := if applyLimit then maxEvents else 0
      let events := runParser allEvents limit
      let loaded := events.length
      if applyLimit ∧ loaded ≥ maxEvents then
        let totalEst : Int :=
          if events ≠ [] then (pyTotalEstimate fileSize loaded : Int) else 0
        LoadResult.mk events fmt totalEst loaded true fileSize none
      else
        LoadResult.mk events fmt (loaded : Int) loaded false fileSize none

/-! ### dettect/coverage.py: phase 3 (cross-referencing detections against
STIX requirements) -/

/-- One entry of a technique's `data_components` list as built by the STIX
loader: the parent data source and the component name. -/
structure DataComp where
  source : String
  component : String
deriving DecidableEq

/-- The STIX technique fields consumed by the coverage and visibility
engines. -/
structure TechInfo where
  name : String
  tactics : List String
  data_components : List DataComp
deriving DecidableEq

/-- One per-technique coverage entry. -/
structure TechCoverage where
  name : String
  tactics : List String
  required : List String
  covered : List String
  missing : List String
  coverage_pct : ℚ
deriving DecidableEq

/-- Python `round(x, 1)` modelled as round-half-up on exact rationals; no
value exercised here sits on a tie. -/
def pyRound1 (q : ℚ) : ℚ := ((Int.floor (q * 10 + 1/2) : ℚ)) / 10

/-- Python `round(x, 2)`, same convention. -/
def pyRound2 (q : ℚ) : ℚ := ((Int.floor (q * 100 + 1/2) : ℚ)) / 100

/-- Result of coverage phase 3. -/
structure CoverageResult where
  technique_coverage : List (String × TechCoverage)
  overall_coverage_pct : ℚ
  techniques_with_data : Nat
  techniques_with_requirements : Nat
deriving DecidableEq

/-- Loop body of phase 3 of `analyze_coverage` (lines 126 to 161):
accumulates the coverage entries, the count of techniques with a nonzero
percentage, and the denominator of techniques with requirements. -/
def coverageStep (detected : List String)
    (acc : List (String × TechCoverage) × Nat × Nat) (t : String × TechInfo) :
    List (String × TechCoverage) × Nat × Nat :=
  let required := t.2.data_components.map (fun d => d.component)
  if required = [] then acc
  else
    let covered := required.filter (fun c => detected.contains c)
    let missing := required.filter (fun c => !(detected.contains c))
    let pct : ℚ := ((covered.length : ℚ) / (required.length : ℚ)) * 100
    (acc.1 ++ [(t.1, TechCoverage.mk t.2.name t.2.tactics required covered missing (pyRound1 pct))],
     acc.2.1 + (if 0 < pct then 1 else 0),
     acc.2.2 + 1)

/-- Embedding of phase 3 of `analyze_coverage`: the sampled detections are
abstracted as the list of detected component names (the keys of the
`detected` dict built by the sampling phases, which involve file IO and
unseeded randomness). -/
def analyzeCoverage (stixTechniques : List (String × TechInfo)) (detected : List String) :
    CoverageResult :=
  let r := stixTechniques.foldl (coverageStep detected) ([], 0, 0)
  let overallPct : ℚ :=
    if r.2.2 ≠ 0 then ((r.2.1 : ℚ) / (r.2.2 : ℚ)) * 100 else 0
  CoverageResult.mk r.1 (pyRound1 overallPct) r.2.1 r.2.2

/-! ### dettect/visibility.py -/

/-- A DeTT&CT data-quality record: the five 0 to 5 dimensions.  A component
whose admin entry is absent, or whose `data_quality` dict is empty, is
modelled as `none`. -/
structure Quality where
  device_completeness : ℚ
  data_field_completeness : ℚ
  timeliness : ℚ
  consistency : ℚ
  retention : ℚ
deriving DecidableEq

/-- One per-technique visibility score entry. -/
structure TechScore where
  name : String
  tactics : List String
  score : Nat
  coverage_pct : ℚ
  quality_avg : ℚ
  required_count : Nat
  covered_count : Nat
  missing : List String
  covered : List String
deriving DecidableEq

/-- Embedding of `_compute_score`. -/
def computeScore (coverage_pct quality_avg : ℚ) : Nat :=
  if coverage_pct ≤ 0 then 0
  else
    let base :=
      if coverage_pct < 25 then 1
      else if coverage_pct < 50 then 2
      else if coverage_pct < 75 then 3
      else if coverage_pct < 100 then 4
      else 4
    if coverage_pct ≥ 75 ∧ quality_avg ≥ 35/10 then 5
    else if coverage_pct ≥ 75 ∧ quality_avg ≥ 2 then 4
    else base

/-- Quality-rating lookup: `ds_admin.get(name, {}).get('data_quality', {})`. -/
def lookupAdmin (dsAdmin : List (String × Option Quality)) (comp : String) : Option Quality :=
  match (dsAdmin.find? (fun kv => kv.1 == comp)).map (fun kv => kv.2) with
  | some q => q
  | none => none

/-- Per-technique body of `calculate_visibility`: required components,
covered and missing against the detections, coverage percentage, quality
average over covered components with a rating on file, and the final
score. -/
def techniqueScore (detected : List String) (dsAdmin : List (String × Option Quality))
    (sinfo : TechInfo) : TechScore :=
  let required := sinfo.data_components.map (fun d => d.component)
  if required = [] then
    TechScore.mk sinfo.name sinfo.tactics 0 0 0 0 0 [] []
  else
    let covered := required.filter (fun c => detected.contains c)
    let missing := required.filter (fun c => !(detected.contains c))
    let covPct : ℚ := ((covered.length : ℚ) / (required.length : ℚ)) * 100
    let qualityScores := covered.filterMap (fun comp =>
      match lookupAdmin dsAdmin comp with
      | some dq => some ((dq.device_completeness + dq.data_field_completeness +
          dq.timeliness + dq.consistency + dq.retention) / 5)
      | none => none)
    let qualityAvg : ℚ :=
      if qualityScores ≠ [] then qualityScores.sum / (qualityScores.length : ℚ) else 0
    TechScore.mk sinfo.name sinfo.tactics (computeScore covPct qualityAvg)
      (pyRound1 covPct) (pyRound2 qualityAvg) required.length covered.length missing covered

/-- Embedding of the `technique_scores` map of `calculate_visibility`; the
detections are the keys of `coverage_result['detected_components']`. -/
def calculateVisibility (stixTechniques : List (String × TechInfo)) (detected : List String)
    (dsAdmin : List (String × Option Quality)) : List (String × TechScore) :=
  stixTechniques.map (fun t => (t.1, techniqueScore detected dsAdmin t.2))

/-! ### stix/parser.py: relationship processing -/

/-- A STIX relationship object, restricted to the consumed fields. -/
structure StixRel where
  relationship_type : String
  source_ref : String
  target_ref : String
  revoked : Bool
  deprecated : Bool
deriving DecidableEq

/-- State built by the relationship loop: each technique's required
data-component list, each component's technique back-references, and the
sub-technique parent map. -/
structure RelState where
  techDCs : String → List DataComp
  compTechs : String → List String
  subParents : List (String × String)

/-- Component names present in a technique's requirement list. -/
def compsOf (st : RelState) (t : String) : List String :=
  (st.techDCs t).map (fun d => d.component)

/-- Embedding of the relationship loop body of `load_stix_data` (lines 129
to 156).  `dcIdToName` and `techIdMap` are the indexes built by the first
pass, which already excluded revoked and deprecated objects (lines 43 to
58); `dsOfComp` resolves a component's parent data source.  A `detects`
link appends to the technique's requirement list and to the component's
back-references, each guarded by a membership check. -/
def processRel (dcIdToName techIdMap : String → Option String) (dsOfComp : String → String)
    (st : RelState) (rel : StixRel) : RelState :=
  if rel.revoked || rel.deprecated then st
  else if rel.relationship_type = "detects" then
    match dcIdToName rel.source_ref, techIdMap rel.target_ref with
    | some dcName, some techMitre =>
      if dcName ≠ "" ∧ techMitre ≠ "" then
        let st1 :=
          if (compsOf st techMitre).contains dcName then st
          else RelState.mk
            (fun t => if t = techMitre then st.techDCs t ++ [DataComp.mk (dsOfComp dcName) dcName]
                      else st.techDCs t)
            st.compTechs st.subParents
        if (st1.compTechs dcName).contains techMitre then st1
        else RelState.mk st1.techDCs
          (fun c => if c = dcName then st1.compTechs c ++ [techMitre] else st1.compTechs c)
          st1.subParents
      else st
    | _, _ => st
  else if rel.relationship_type = "subtechnique-of" then
    match techIdMap rel.source_ref, techIdMap rel.target_ref with
    | some child, some parent =>
      if child ≠ "" ∧ parent ≠ "" then
        RelState.mk st.techDCs st.compTechs (setv st.subParents child parent)
      else st
    | _, _ => st
  else st

/-- The initial relationship state: all requirement and back-reference
lists start empty. -/
def initRelState : RelState := RelState.mk (fun _ => []) (fun _ => []) []

/-- The full relationship loop of `load_stix_data`. -/
def processRels (dcIdToName techIdMap : String → Option String) (dsOfComp : String → String)
    (rels : List StixRel) : RelState :=
  rels.foldl (processRel dcIdToName techIdMap dsOfComp) initRelState

/-- Duplicate-freedom invariant of the relationship state: no technique
lists a component twice and no component lists a technique twice. -/
def RelInv (st : RelState) : Prop :=
  (∀ t, (compsOf st t).Nodup) ∧ (∀ c, (st.compTechs c).Nodup)

/-- A one-entry component index for the C9 witness. -/
def c9DcName (s : String) : Option String :=
  if s = "dc--1" then some "Process Creation" else none

/-- A one-entry technique index for the C9 witness. -/
def c9TechId (s : String) : Option String :=
  if s = "ap--1" then some "T1059" else none

/-- A data-source resolver for the C9 witness. -/
def c9DsOf : String → String := fun _ => "Process"

/-- A single detects relationship for the C9 witness. -/
def c9Rel : StixRel := StixRel.mk "detects" "dc--1" "ap--1" false false

/-! ### Concrete inputs used by the claims -/

/-- The one-technique catalog of the spec's scenario 3: T1003 requires
components A and B. -/
def c1Techs : List (String × TechInfo) :=
  [("T1003", TechInfo.mk "OS Credential Dumping" ["credential-access"]
    [DataComp.mk "DS" "A", DataComp.mk "DS" "B"])]

/-- The decoded JSON array of the spec's scenario 2. -/
def c3Json : JVal :=
  .jarr [.jobj [("eventName", .jstr "CreateUser"),
                ("userIdentity", .jobj [("userName", .jstr "bob")])]]

/-- The flattened event that scenario 2 produces. -/
def c3Event : Event := [("eventName", "CreateUser"), ("userIdentity.userName", "bob")]

/-- The key-value file of the spec's scenario 1 exactly as the claim states
it: three blocks opened by timestamp lines, block 3 carrying the three
field lines as top-level `Key=Value` lines. -/
def c4Lines : List String :=
  ["01/02/2023 3:04:05 PM",
   "01/02/2023 3:04:05 PM",
   "01/02/2023 3:04:05 PM",
   "EventCode=4688",
   "New Process Name=C:\\a.exe",
   "Creator Process Name=C:\\b.exe"]

/-- The scenario 1 file with the process-name lines carried inside the
event's multi-line Message field, which is where `_extract_keyvalue`
actually reads them from. -/
def c4LinesAmended : List String :=
  ["01/02/2023 3:04:05 PM",
   "01/02/2023 3:04:05 PM",
   "01/02/2023 3:04:05 PM",
   "EventCode=4688",
   "Message=A new process has been created.",
   "New Process Name=C:\\a.exe",
   "Creator Process Name=C:\\b.exe"]

/-- A three-technique catalog whose coverage ratio (one of three) is not
representable at one decimal. -/
def c8Techs : List (String × TechInfo) :=
  [("T0001", TechInfo.mk "t1" [] [DataComp.mk "S" "A"]),
   ("T0002", TechInfo.mk "t2" [] [DataComp.mk "S" "B"]),
   ("T0003", TechInfo.mk "t3" [] [DataComp.mk "S" "C"])]

/-- A small parsed-event sequence for the loader claims: three events from
a key-value file. -/
def c5Events : List Event := [[("A", "1")], [("A", "2")], [("A", "3")]]

/-- Readable key-value content used by the loader claims. -/
def c5Content : String := "LogName=Security\nEventCode=4624\nx=1"

/-- Seven parsed events, for the floating-point divergence of the
truncation estimate. -/
def c5Events7 : List Event := List.replicate 7 [("A", "1")]

/-- A sysmon process-creation event, used for the aggregation claims. -/
def c6EvA : Event :=
  [("EventID", "1"), ("Computer", "DC01"), ("Image", "C:\\w.exe"),
   ("ParentImage", "C:\\p.exe"), ("User", "alice")]

/-- A sysmon network-connection event, used for the aggregation claims. -/
def c6EvB : Event :=
  [("EventID", "3"), ("Computer", "DC01"), ("Image", "C:\\w.exe"),
   ("SourceIp", "10.0.0.1"), ("DestinationIp", "10.0.0.2"), ("DestinationPort", "443")]

/-! ## Claim theorems -/

/-- Claim C1, counterexample: for the T1003 scenario with required
components A and B and only A detected, the visibility scorer assigns
score 3, not 2 as the claim states: `_compute_score` places coverage
exactly 50 percent in its 50-to-75 band. -/
theorem c1_counterexample :
    (calculateVisibility c1Techs ["A"] []).map (fun t => (t.1, t.2.score)) ≠ [("T1003", 2)] ∧
    computeScore 50 0 = 3 := by
  norm_num +decide [calculateVisibility, techniqueScore, computeScore, c1Techs, lookupAdmin,
    List.contains, List.filter, List.filterMap]

/-- Claim C1 (amended): for a technique whose required data components are
exactly A and B and a sample that detects only A, the coverage engine
reports required A and B, covered A, missing B, coverage 50.0 percent, and
the visibility scorer assigns that technique score 3. -/
theorem c1_technique_coverage_and_score :
    (analyzeCoverage c1Techs ["A"]).technique_coverage =
      [("T1003", TechCoverage.mk "OS Credential Dumping" ["credential-access"]
        ["A", "B"] ["A"] ["B"] 50)] ∧
    (calculateVisibility c1Techs ["A"] []).map (fun t => (t.1, t.2.score)) = [("T1003", 3)] := by
  norm_num +decide [analyzeCoverage, coverageStep, calculateVisibility, techniqueScore,
    computeScore, c1Techs, pyRound1, lookupAdmin, List.contains, List.filter, List.filterMap]

/-- Claim C3, evaluation at the failing input: parsing the scenario's JSON
array yields exactly one event with keys eventName and
userIdentity.userName as the claim states, but extraction produces only the
api_call node for CreateUser, with no user node for bob and no called edge:
the conditional expression on `userIdentity.arn` makes the
`userIdentity.userName` lookup unreachable when no arn is present, so the
user resolves to the sentinel `unknown`. -/
theorem c3_json_extraction_eval :
    parseJsonArray c3Json 0 = [c3Event] ∧
    c3Event.map Prod.fst = ["eventName", "userIdentity.userName"] ∧
    (extractJson c3Event).1.map (fun n => (n.1, n.2.entity_type)) =
      [("api_call::createuser", "api_call")] ∧
    (extractJson c3Event).2 = [] := by
  decide

/-- Claim C4, counterexample: with the three field lines of block 3 given
as top-level `Key=Value` lines, the parser does return three events, but
extracting the third yields no nodes and no edges at all, because
`_extract_keyvalue` reads the process names only from inside the Message
field. -/
theorem c4_counterexample :
    (parseKeyvalueEvents c4Lines 0).length = 3 ∧
    extractKeyvalue ((parseKeyvalueEvents c4Lines 0).getD 2 []) = ([], []) := by
  decide

/-- Claim C4 (amended): for the three-block key-value file whose third
block carries EventCode 4688 and a Message whose continuation lines hold
the New Process Name and Creator Process Name fields, the parser returns
exactly three events, and extracting the third yields exactly two process
nodes and one spawned edge from the b.exe process node to the a.exe
process node. -/
theorem c4_keyvalue_pipeline :
    (parseKeyvalueEvents c4LinesAmended 0).length = 3 ∧
    (extractKeyvalue ((parseKeyvalueEvents c4LinesAmended 0).getD 2 [])).1.map
      (fun n => (n.1, n.2.entity_type)) =
      [("process::c:\\a.exe", "process"), ("process::c:\\b.exe", "process")] ∧
    (extractKeyvalue ((parseKeyvalueEvents c4LinesAmended 0).getD 2 [])).2 =
      [some ("process::c:\\b.exe", "process::c:\\a.exe",
        EdgeAttrs.mk "spawned" "process_creation")] := by
  decide

/-- Claim C2, counterexample: an unreadable file whose path ends in
`.json` is classified as json, not unknown, because the except clause of
the extension branch returns json. -/
theorem c2_counterexample :
    detectFormat "logs/events.json" none none = "json" ∧ ("json" : String) ≠ "unknown" := by
  decide

/-- Claim C5, counterexample: both halves of the claim fail.  For a
100-byte file (below the 5 MB threshold) holding three events and a
positive cap of 2, the loader invokes the parser without a limit and
reports loaded 3, exceeding max_events.  And for a file of 5242885 bytes
(just over the threshold) truncated at a cap of 7, the double-precision
estimate int(file_size / (file_size / loaded)) lands below loaded:
total_estimated is 6 while loaded is 7, so total_estimated is not at least
loaded; at the default cap of 2000 and file size 5242881 the same rounding
yields 1999 against 2000 loaded events. -/
theorem c5_counterexample :
    ((loadFile "small.log" none (some c5Content) true 100 c5Events 2).loaded = 3 ∧
     ¬ (loadFile "small.log" none (some c5Content) true 100 c5Events 2).loaded ≤ 2) ∧
    ((loadFile "big.log" none (some c5Content) true 5242885 c5Events7 7).truncated = true ∧
     (loadFile "big.log" none (some c5Content) true 5242885 c5Events7 7).loaded = 7 ∧
     (loadFile "big.log" none (some c5Content) true 5242885 c5Events7 7).total_estimated = 6 ∧
     ¬ ((7 : Int) ≤ 6)) ∧
    pyTotalEstimate 5242881 2000 = 1999 := by
  decide

/-- Claim C7, counterexample: two values that differ only in path-separator
style (forward slash versus backslash) produce distinct node ids: the
normalisation collapses doubled backslashes but never unifies the two
separator characters. -/
theorem c7_counterexample :
    (nodeOf "file" "C:/a.exe" none).map Prod.fst = some "file::c:/a.exe" ∧
    (nodeOf "file" "C:\\a.exe" none).map Prod.fst = some "file::c:\\a.exe" ∧
    ("file::c:/a.exe" : String) ≠ "file::c:\\a.exe" := by
  decide

/-- Adding an edge leaves the node map unchanged. -/
theorem nodes_addEdgeOpt (g : GraphAcc) (e : Option Edge) : (addEdgeOpt g e).nodes = g.nodes := by
  unfold addEdgeOpt addEdge
  rcases e with _ | ed
  · rfl
  · rcases h : g.edges (ed.1, ed.2.1) with _ | ⟨a, w⟩ <;> simp [h]

/-- Adding a node leaves the edge map unchanged. -/
theorem edges_addNode (g : GraphAcc) (n : Node) : (addNode g n).edges = g.edges := by
  unfold addNode
  rcases h : g.nodes n.1 with _ | ⟨a, c⟩ <;> simp [h]

/-- One node insertion increments exactly the inserted id's count. -/
theorem nodeCountOf_addNode (g : GraphAcc) (n : Node) (id : String) :
    nodeCountOf (addNode g n) id = nodeCountOf g id + (if id = n.1 then 1 else 0) := by
  unfold addNode nodeCountOf
  rcases h : g.nodes n.1 with _ | ⟨a, c⟩ <;> by_cases hid : id = n.1 <;> simp [h, hid]

/-- Node counts only read the node map. -/
theorem nodeCountOf_eq_of_nodes_eq (g h : GraphAcc) (hn : g.nodes = h.nodes) (id : String) :
    nodeCountOf g id = nodeCountOf h id := by
  unfold nodeCountOf
  rw [hn]

/-- Edge weights only read the edge map. -/
theorem edgeWeightOf_eq_of_edges_eq (g h : GraphAcc) (he : g.edges = h.edges)
    (k : String × String) :
    edgeWeightOf g k = edgeWeightOf h k := by
  unfold edgeWeightOf
  rw [he]

/-- Folding a node batch adds each id's multiplicity to its count. -/
theorem nodeCountOf_foldl_addNode (ns : List Node) (g : GraphAcc) (id : String) :
    nodeCountOf (ns.foldl addNode g) id = nodeCountOf g id + (ns.map Prod.fst).count id := by
  induction ns generalizing g with
  | nil => simp
  | cons n ns ih =>
    rw [List.foldl_cons, ih, nodeCountOf_addNode, List.map_cons, List.count_cons]
    by_cases hid : id = n.1
    · simp [hid]
      ring
    · simp [hid, Ne.symm hid]

/-- Folding an edge batch leaves the node map unchanged. -/
theorem nodes_foldl_addEdgeOpt (es : List (Option Edge)) (g : GraphAcc) :
    (es.foldl addEdgeOpt g).nodes = g.nodes := by
  induction es generalizing g with
  | nil => rfl
  | cons e es ih => rw [List.foldl_cons, ih, nodes_addEdgeOpt]

/-- Folding a node batch leaves the edge map unchanged. -/
theorem edges_foldl_addNode (ns : List Node) (g : GraphAcc) :
    (ns.foldl addNode g).edges = g.edges := by
  induction ns generalizing g with
  | nil => rfl
  | cons n ns ih => rw [List.foldl_cons, ih, edges_addNode]

/-- One event adds its node occurrences to every count. -/
theorem nodeCountOf_processEvent (fmt : String) (allowed : List String) (g : GraphAcc)
    (e : Event) (id : String) :
    nodeCountOf (processEvent fmt allowed g e) id =
      nodeCountOf g id + eventNodeOcc fmt allowed id e := by
  unfold processEvent eventNodeOcc
  by_cases hs : skipEvent allowed e
  · simp [hs]
  · simp only [hs, if_false, Bool.false_eq_true, if_neg]
    rw [nodeCountOf_eq_of_nodes_eq _ _ (nodes_foldl_addEdgeOpt _ _), nodeCountOf_foldl_addNode]

/-- One edge insertion increments exactly the inserted key's weight. -/
theorem edgeWeightOf_addEdge (g : GraphAcc) (ed : Edge) (k : String × String) :
    edgeWeightOf (addEdge g ed) k = edgeWeightOf g k + (if k = edgeKeyOf ed then 1 else 0) := by
  unfold addEdge edgeWeightOf edgeKeyOf
  rcases h : g.edges (ed.1, ed.2.1) with _ | ⟨a, w⟩ <;> by_cases hk : k = (ed.1, ed.2.1) <;>
    simp [h, hk]

/-- Folding an edge batch adds each key's multiplicity (nulls skipped) to
its weight. -/
theorem edgeWeightOf_foldl_addEdgeOpt (es : List (Option Edge)) (g : GraphAcc)
    (k : String × String) :
    edgeWeightOf (es.foldl addEdgeOpt g) k =
      edgeWeightOf g k + (es.filterMap (fun oe => oe.map edgeKeyOf)).count k := by
  induction es generalizing g with
  | nil => simp
  | cons e es ih =>
    rcases e with _ | ed
    · rw [List.foldl_cons, ih]
      rfl
    · rw [List.foldl_cons, ih]
      show edgeWeightOf (addEdge g ed) k + _ = _
      rw [edgeWeightOf_addEdge]
      show _ = edgeWeightOf g k +
        (edgeKeyOf ed :: es.filterMap (fun oe => oe.map edgeKeyOf)).count k
      rw [List.count_cons]
      by_cases hk : k = edgeKeyOf ed
      · simp [hk]
        ring
      · simp [hk, Ne.symm hk]

/-- One event adds its edge occurrences to every weight. -/
theorem edgeWeightOf_processEvent (fmt : String) (allowed : List String) (g : GraphAcc)
    (e : Event) (k : String × String) :
    edgeWeightOf (processEvent fmt allowed g e) k =
      edgeWeightOf g k + eventEdgeOcc fmt allowed k e := by
  unfold processEvent eventEdgeOcc
  by_cases hs : skipEvent allowed e
  · simp [hs]
  · simp only [hs, if_false, Bool.false_eq_true, if_neg]
    rw [edgeWeightOf_foldl_addEdgeOpt,
      edgeWeightOf_eq_of_edges_eq _ _ (edges_foldl_addNode _ _)]

/-- Folding an event batch adds the per-event occurrence sums to every node
count. -/
theorem nodeCountOf_foldl_process (fmt : String) (allowed : List String) (evs : List Event)
    (g : GraphAcc) (id : String) :
    nodeCountOf (evs.foldl (processEvent fmt allowed) g) id =
      nodeCountOf g id + (evs.map (eventNodeOcc fmt allowed id)).sum := by
  induction evs generalizing g with
  | nil => simp
  | cons e evs ih =>
    rw [List.foldl_cons, ih, nodeCountOf_processEvent]
    simp
    ring

/-- Folding an event batch adds the per-event occurrence sums to every edge
weight. -/
theorem edgeWeightOf_foldl_process (fmt : String) (allowed : List String) (evs : List Event)
    (g : GraphAcc) (k : String × String) :
    edgeWeightOf (evs.foldl (processEvent fmt allowed) g) k =
      edgeWeightOf g k + (evs.map (eventEdgeOcc fmt allowed k)).sum := by
  induction evs generalizing g with
  | nil => simp
  | cons e evs ih =>
    rw [List.foldl_cons, ih, edgeWeightOf_processEvent]
    simp
    ring

/-- Node presence after one insertion. -/
theorem isSome_nodes_addNode (g : GraphAcc) (n : Node) (id : String) :
    ((addNode g n).nodes id).isSome = ((g.nodes id).isSome || id == n.1) := by
  unfold addNode
  rcases h : g.nodes n.1 with _ | ⟨a, c⟩ <;> by_cases hid : id = n.1 <;> simp [h, hid]

/-- Node presence after folding a node batch. -/
theorem isSome_nodes_foldl_addNode (ns : List Node) (g : GraphAcc) (id : String) :
    ((ns.foldl addNode g).nodes id).isSome =
      ((g.nodes id).isSome || (ns.map Prod.fst).contains id) := by
  induction ns generalizing g with
  | nil => simp
  | cons n ns ih =>
    rw [List.foldl_cons, ih, isSome_nodes_addNode]
    simp [Bool.or_assoc]

/-- Edge presence after one insertion. -/
theorem isSome_edges_addEdge (g : GraphAcc) (ed : Edge) (k : String × String) :
    ((addEdge g ed).edges k).isSome = ((g.edges k).isSome || k == edgeKeyOf ed) := by
  unfold addEdge edgeKeyOf
  rcases h : g.edges (ed.1, ed.2.1) with _ | ⟨a, w⟩ <;> by_cases hk : k = (ed.1, ed.2.1) <;>
    simp [h, hk]

/-- Edge presence after folding an edge batch. -/
theorem isSome_edges_foldl_addEdgeOpt (es : List (Option Edge)) (g : GraphAcc)
    (k : String × String) :
    ((es.foldl addEdgeOpt g).edges k).isSome =
      ((g.edges k).isSome || (es.filterMap (fun oe => oe.map edgeKeyOf)).contains k) := by
  induction es generalizing g with
  | nil => simp
  | cons e es ih =>
    rcases e with _ | ed
    · rw [List.foldl_cons, ih]
      rfl
    · rw [List.foldl_cons, ih]
      show (((addEdge g ed).edges k).isSome ||
          (es.filterMap (fun oe => oe.map edgeKeyOf)).contains k) =
        ((g.edges k).isSome ||
          (edgeKeyOf ed :: es.filterMap (fun oe => oe.map edgeKeyOf)).contains k)
      rw [isSome_edges_addEdge, Bool.or_assoc, List.contains_cons]

/-- A node id is present in a built graph exactly when its count is
positive. -/
theorem isSome_nodes_buildGraph_iff (evs : List Event) (fmt : String) (allowed : List String)
    (id : String) :
    ((buildGraph evs fmt allowed).nodes id).isSome ↔
      0 < nodeCountOf (buildGraph evs fmt allowed) id := by
  unfold buildGraph
  suffices h : ∀ g : GraphAcc, ((g.nodes id).isSome ↔ 0 < nodeCountOf g id) →
      (((evs.foldl (processEvent fmt allowed) g).nodes id).isSome ↔
        0 < nodeCountOf (evs.foldl (processEvent fmt allowed) g) id) by
    apply h
    simp [emptyGraph, nodeCountOf]
  intro g hg
  induction evs generalizing g with
  | nil => exact hg
  | cons e evs ih =>
    rw [List.foldl_cons]
    apply ih
    unfold processEvent
    by_cases hs : skipEvent allowed e
    · simpa [hs] using hg
    · simp only [hs, Bool.false_eq_true, if_false]
      have hnodes := nodes_foldl_addEdgeOpt ((extractEntitiesAndEdges e fmt).2)
        (((extractEntitiesAndEdges e fmt).1).foldl addNode g)
      rw [nodeCountOf_eq_of_nodes_eq _ _ hnodes, hnodes, isSome_nodes_foldl_addNode,
        nodeCountOf_foldl_addNode]
      have hb : ((extractEntitiesAndEdges e fmt).1.map Prod.fst).contains id = true ↔
          0 < ((extractEntitiesAndEdges e fmt).1.map Prod.fst).count id := by
        rw [List.count_pos_iff]
        exact List.elem_iff
      simp only [Bool.or_eq_true]
      rw [hg, hb]
      omega

/-- An edge key is present in a built graph exactly when its weight is
positive. -/
theorem isSome_edges_buildGraph_iff (evs : List Event) (fmt : String) (allowed : List String)
    (k : String × String) :
    ((buildGraph evs fmt allowed).edges k).isSome ↔
      0 < edgeWeightOf (buildGraph evs fmt allowed) k := by
  unfold buildGraph
  suffices h : ∀ g : GraphAcc, ((g.edges k).isSome ↔ 0 < edgeWeightOf g k) →
      (((evs.foldl (processEvent fmt allowed) g).edges k).isSome ↔
        0 < edgeWeightOf (evs.foldl (processEvent fmt allowed) g) k) by
    apply h
    simp [emptyGraph, edgeWeightOf]
  intro g hg
  induction evs generalizing g with
  | nil => exact hg
  | cons e evs ih =>
    rw [List.foldl_cons]
    apply ih
    unfold processEvent
    by_cases hs : skipEvent allowed e
    · simpa [hs] using hg
    · simp only [hs, Bool.false_eq_true, if_false]
      have hedges := edges_foldl_addNode ((extractEntitiesAndEdges e fmt).1) g
      rw [edgeWeightOf_foldl_addEdgeOpt,
        edgeWeightOf_eq_of_edges_eq _ _ hedges, isSome_edges_foldl_addEdgeOpt, hedges]
      have hb : ((extractEntitiesAndEdges e fmt).2.filterMap
            (fun oe => oe.map edgeKeyOf)).contains k = true ↔
          0 < ((extractEntitiesAndEdges e fmt).2.filterMap
            (fun oe => oe.map edgeKeyOf)).count k := by
        rw [List.count_pos_iff]
        exact List.elem_iff
      simp only [Bool.or_eq_true]
      rw [hg, hb]
      omega

/-- Claim C6: graph aggregation is commutative.  Any permutation of the
event batch yields a graph with the same node set, the same edge set, the
same per-node count and the same per-edge weight; only construction order
(hence presentation order) can differ. -/
theorem c6_build_graph_commutative (events1 events2 : List Event) (fmt : String)
    (allowed : List String) (hperm : events1.Perm events2) :
    (∀ id, nodeCountOf (buildGraph events1 fmt allowed) id =
      nodeCountOf (buildGraph events2 fmt allowed) id) ∧
    (∀ k, edgeWeightOf (buildGraph events1 fmt allowed) k =
      edgeWeightOf (buildGraph events2 fmt allowed) k) ∧
    (∀ id, ((buildGraph events1 fmt allowed).nodes id).isSome ↔
      ((buildGraph events2 fmt allowed).nodes id).isSome) ∧
    (∀ k, ((buildGraph events1 fmt allowed).edges k).isSome ↔
      ((buildGraph events2 fmt allowed).edges k).isSome) := by
  have hn : ∀ id, nodeCountOf (buildGraph events1 fmt allowed) id =
      nodeCountOf (buildGraph events2 fmt allowed) id := by
    intro id
    unfold buildGraph
    rw [nodeCountOf_foldl_process, nodeCountOf_foldl_process]
    congr 1
    exact (hperm.map (eventNodeOcc fmt allowed id)).sum_eq
  have he : ∀ k, edgeWeightOf (buildGraph events1 fmt allowed) k =
      edgeWeightOf (buildGraph events2 fmt allowed) k := by
    intro k
    unfold buildGraph
    rw [edgeWeightOf_foldl_process, edgeWeightOf_foldl_process]
    congr 1
    exact (hperm.map (eventEdgeOcc fmt allowed k)).sum_eq
  refine ⟨hn, he, ?_, ?_⟩
  · intro id
    rw [isSome_nodes_buildGraph_iff, isSome_nodes_buildGraph_iff, hn id]
  · intro k
    rw [isSome_edges_buildGraph_iff, isSome_edges_buildGraph_iff, he k]

/-- Witness for C6: swapping two sysmon events leaves the shared host
node's count unchanged. -/
theorem c6_witness :
    nodeCountOf (buildGraph [c6EvA, c6EvB] "xml_sysmon" []) "host::dc01" =
      nodeCountOf (buildGraph [c6EvB, c6EvA] "xml_sysmon" []) "host::dc01" :=
  (c6_build_graph_commutative [c6EvA, c6EvB] [c6EvB, c6EvA] "xml_sysmon" []
    (List.Perm.swap c6EvB c6EvA [])).1 "host::dc01"

/-- Claim C2 (amended): when opening or reading the file fails (no readable
content), detect_format never raises; it returns unknown provided the
optional hint contains none of the recognised substrings and the path does
not end in `.json` (case-insensitive).  A recognised hint short-circuits to
its format before any read, and a `.json` extension yields json even for an
unreadable file. -/
theorem c2_unreadable_unknown (path : String) (hint : Option String)
    (hhint : ∀ h, hint = some h →
      h = "" ∨ (strContains (strLower h) "xmlwineventlog" = false ∧
        strContains (strLower h) "sysmon" = false ∧
        strContains (strLower h) "json" = false ∧
        strContains (strLower h) "cloudtrail" = false))
    (hext : strEndsWith (strLower path) ".json" = false) :
    detectFormat path hint none = "unknown" := by
  unfold detectFormat
  cases hint with
  | none => simp [hext]
  | some h =>
    rcases hhint h rfl with h0 | ⟨h1, h2, h3, h4⟩
    · subst h0
      simp [hext]
    · simp [h1, h2, h3, h4, hext]

/-- Witness for C2: a plain unreadable log file with no hint is classified
unknown. -/
theorem c2_witness : detectFormat "trace.log" none none = "unknown" :=
  c2_unreadable_unknown "trace.log" none (fun _ hh => Option.noConfusion hh) (by decide)

/-- Claim C5 (amended): the event cap binds only when the file exceeds the
5 MB threshold: in that case loaded never exceeds max_events, while files
at or below the threshold are parsed uncapped and loaded may exceed
max_events.  Whenever the result is marked truncated, the file exceeded the
threshold and loaded equals max_events exactly.  No lower bound relates
total_estimated to loaded: the estimate is evaluated in double-precision
arithmetic and can land one below loaded, as the counterexample shows. -/
theorem c5_truncation_accounting (path : String) (hint : Option String)
    (content : Option String) (isFile : Bool) (fileSize : Nat) (allEvents : List Event)
    (maxEvents : Nat) (hpos : 0 < maxEvents) :
    (MAX_FILE_SIZE < fileSize →
      (loadFile path hint content isFile fileSize allEvents maxEvents).loaded ≤ maxEvents) ∧
    ((loadFile path hint content isFile fileSize allEvents maxEvents).truncated = true →
      MAX_FILE_SIZE < fileSize ∧
      (loadFile path hint content isFile fileSize allEvents maxEvents).loaded = maxEvents) := by
  unfold loadFile
  by_cases hf : isFile
  case neg => simp [hf]
  simp only [hf, not_true_eq_false, if_false, ite_false]
  by_cases hk : parserKnown (detectFormat path hint content)
  case neg => simp [hk]
  simp only [hk, not_true_eq_false, if_false, ite_false]
  by_cases hal : fileSize > MAX_FILE_SIZE
  · have hne : maxEvents ≠ 0 := Nat.pos_iff_ne_zero.mp hpos
    simp only [hal, if_true, runParser, hne, ite_false]
    by_cases htr : (allEvents.take maxEvents).length ≥ maxEvents
    · have hlen : (allEvents.take maxEvents).length = maxEvents := by
        have := List.length_take maxEvents allEvents
        omega
      simp only [if_pos (And.intro trivial htr)]
      exact ⟨fun _ => le_of_eq hlen, fun _ => ⟨trivial, hlen⟩⟩
    · simp only [htr]
      simp [List.length_take]
  · simp [hal, runParser]

/-- Witness for C5: a 6 MB key-value file with three parsed events and cap
2 is truncated with loaded equal to the cap. -/
theorem c5_witness :
    (MAX_FILE_SIZE < 6 * 1024 * 1024 →
      (loadFile "big.log" none (some c5Content) true (6 * 1024 * 1024) c5Events 2).loaded ≤ 2) ∧
    ((loadFile "big.log" none (some c5Content) true (6 * 1024 * 1024) c5Events 2).truncated = true →
      MAX_FILE_SIZE < 6 * 1024 * 1024 ∧
      (loadFile "big.log" none (some c5Content) true (6 * 1024 * 1024) c5Events 2).loaded = 2) :=
  c5_truncation_accounting "big.log" none (some c5Content) true (6 * 1024 * 1024) c5Events 2
    (by decide)

/-- Positivity of the coverage percentage is exactly coverage of at least
one required component. -/
theorem pct_pos_iff (k n : Nat) (hn : 0 < n) :
    ((0 : ℚ) < ((k : ℚ) / (n : ℚ)) * 100) ↔ 0 < k := by
  rcases Nat.eq_zero_or_pos k with hk | hk
  · subst hk
    simp
  · have h1 : (0 : ℚ) < (k : ℚ) := by exact_mod_cast hk
    have h2 : (0 : ℚ) < (n : ℚ) := by exact_mod_cast hn
    constructor
    · intro _
      exact hk
    · intro _
      exact mul_pos (div_pos h1 h2) (by norm_num)

/-- Characterisation of coverage phase 3's fold: entry keys, denominator
and covered-technique counter, relative to any starting accumulator. -/
theorem coverage_foldl_spec (detected : List String) (techs : List (String × TechInfo))
    (acc : List (String × TechCoverage) × Nat × Nat) :
    (techs.foldl (coverageStep detected) acc).1.map Prod.fst =
      acc.1.map Prod.fst ++
        (techs.filter (fun t => !(t.2.data_components.isEmpty))).map Prod.fst ∧
    (techs.foldl (coverageStep detected) acc).2.2 =
      acc.2.2 + (techs.filter (fun t => !(t.2.data_components.isEmpty))).length ∧
    (techs.foldl (coverageStep detected) acc).2.1 =
      acc.2.1 + ((techs.filter (fun t => !(t.2.data_components.isEmpty))).filter
        (fun t => t.2.data_components.any (fun d => detected.contains d.component))).length := by
  induction techs generalizing acc with
  | nil => simp
  | cons t ts ih =>
    rw [List.foldl_cons]
    by_cases hdc : t.2.data_components = []
    · have hreq : t.2.data_components.map (fun d => d.component) = [] := by
        rw [hdc]
        rfl
      have hstep : coverageStep detected acc t = acc := by
        unfold coverageStep
        rw [if_pos hreq]
      have hemp : t.2.data_components.isEmpty = true := by
        rw [hdc]
        rfl
      rw [hstep]
      rcases ih acc with ⟨i1, i2, i3⟩
      refine ⟨?_, ?_, ?_⟩ <;> simp only [List.filter_cons, hemp, Bool.not_true,
        Bool.false_eq_true, if_false, i1, i2, i3]
    · have hreq : t.2.data_components.map (fun d => d.component) ≠ [] := by
        simpa using hdc
      have hemp : t.2.data_components.isEmpty = false := by
        cases h : t.2.data_components with
        | nil => exact absurd h hdc
        | cons a as => rfl
      have hn : 0 < (t.2.data_components.map (fun d => d.component)).length :=
        List.length_pos.mpr hreq
      have hcov : (0 < ((((t.2.data_components.map (fun d => d.component)).filter
            (fun c => detected.contains c)).length : ℚ) /
            ((t.2.data_components.map (fun d => d.component)).length : ℚ)) * 100) ↔
          t.2.data_components.any (fun d => detected.contains d.component) = true := by
        rw [pct_pos_iff _ _ hn]
        rw [List.length_pos]
        constructor
        · intro hne2
          rcases List.exists_mem_of_ne_nil _ hne2 with ⟨c, hc⟩
          rcases List.mem_filter.mp hc with ⟨hcm, hcd⟩
          rcases List.mem_map.mp hcm with ⟨d, hd, hdc2⟩
          exact List.any_eq_true.mpr ⟨d, hd, by rw [hdc2]; exact hcd⟩
        · intro ha
          rcases List.any_eq_true.mp ha with ⟨d, hd, hdd⟩
          intro hnil
          have : d.component ∈ (t.2.data_components.map (fun d => d.component)).filter
              (fun c => detected.contains c) :=
            List.mem_filter.mpr ⟨List.mem_map.mpr ⟨d, hd, rfl⟩, hdd⟩
          rw [hnil] at this
          exact List.not_mem_nil _ this
      have hstep : coverageStep detected acc t =
          (acc.1 ++ [(t.1, TechCoverage.mk t.2.name t.2.tactics
            (t.2.data_components.map (fun d => d.component))
            ((t.2.data_components.map (fun d => d.component)).filter
              (fun c => detected.contains c))
            ((t.2.data_components.map (fun d => d.component)).filter
              (fun c => !(detected.contains c)))
            (pyRound1 (((((t.2.data_components.map (fun d => d.component)).filter
              (fun c => detected.contains c)).length : ℚ) /
              ((t.2.data_components.map (fun d => d.component)).length : ℚ)) * 100)))],
           acc.2.1 + (if t.2.data_components.any (fun d => detected.contains d.component) = true
             then 1 else 0),
           acc.2.2 + 1) := by
        unfold coverageStep
        rw [if_neg hreq]
        dsimp only
        rw [if_congr hcov rfl rfl]
      obtain ⟨i1, i2, i3⟩ := ih (coverageStep detected acc t)
      refine ⟨?_, ?_, ?_⟩
      · rw [i1, hstep]
        simp only [List.filter_cons, hemp, Bool.not_false, if_true, List.map_append,
          List.map_cons]
        simp
      · rw [i2, hstep]
        simp only [List.filter_cons, hemp, Bool.not_false, if_true, List.length_cons]
        omega
      · rw [i3, hstep]
        by_cases hany : t.2.data_components.any (fun d => detected.contains d.component) = true
        · simp only [List.filter_cons, hemp, Bool.not_false, if_true, hany,
            List.length_cons]
          omega
        · have hany2 : t.2.data_components.any (fun d => detected.contains d.component) = false := by
            simpa using hany
          simp only [List.filter_cons, hemp, Bool.not_false, if_true, hany2,
            Bool.false_eq_true, if_false]
          omega

/-- Claim C8 (amended): techniques with zero required components appear in
no per-technique coverage entry and are excluded from the overall
denominator, and overall_coverage_pct equals 100 times the number of
requirement-bearing techniques with at least one covered component divided
by the number of techniques with at least one required component, rounded
to one decimal (0 when no technique has requirements). -/
theorem c8_overall_coverage (techs : List (String × TechInfo)) (detected : List String) :
    (analyzeCoverage techs detected).technique_coverage.map Prod.fst =
      (techs.filter (fun t => !(t.2.data_components.isEmpty))).map Prod.fst ∧
    (analyzeCoverage techs detected).techniques_with_requirements =
      (techs.filter (fun t => !(t.2.data_components.isEmpty))).length ∧
    (analyzeCoverage techs detected).techniques_with_data =
      ((techs.filter (fun t => !(t.2.data_components.isEmpty))).filter
        (fun t => t.2.data_components.any (fun d => detected.contains d.component))).length ∧
    (analyzeCoverage techs detected).overall_coverage_pct =
      pyRound1 (if (techs.filter (fun t => !(t.2.data_components.isEmpty))).length = 0 then 0
        else ((((techs.filter (fun t => !(t.2.data_components.isEmpty))).filter
            (fun t => t.2.data_components.any (fun d => detected.contains d.component))).length : ℚ)
          / ((techs.filter (fun t => !(t.2.data_components.isEmpty))).length : ℚ)) * 100) := by
  obtain ⟨i1, i2, i3⟩ := coverage_foldl_spec detected techs ([], 0, 0)
  unfold analyzeCoverage
  dsimp only
  rw [i1, i2, i3]
  dsimp only
  simp only [Nat.zero_add, List.map_nil, List.nil_append]
  refine ⟨trivial, trivial, trivial, ?_⟩
  by_cases hz : (techs.filter (fun t => !(t.2.data_components.isEmpty))).length = 0
  · rw [if_neg (by omega), if_pos hz]
  · rw [if_pos hz, if_neg hz]

/-- Character-level fact: `Char.ofNat` of a valid code point decodes back
to that code point. -/
theorem toNat_ofNat_valid (n : Nat) (h : n.isValidChar) : (Char.ofNat n).toNat = n := by
  simp [Char.ofNat, dif_pos h, Char.ofNatAux, Char.toNat, UInt32.toNat, BitVec.toNat_ofNatLt]

/-- Code point of `Char.toLower`: shifted by 32 on the upper-case latin
range, unchanged elsewhere. -/
theorem toLower_toNat (c : Char) :
    (Char.toLower c).toNat = if 65 ≤ c.toNat ∧ c.toNat ≤ 90 then c.toNat + 32 else c.toNat := by
  simp only [Char.toLower]
  by_cases h : 65 ≤ c.toNat ∧ c.toNat ≤ 90
  · rw [if_pos (show c.toNat ≥ 65 ∧ c.toNat ≤ 90 from ⟨h.1, h.2⟩), if_pos h]
    exact toNat_ofNat_valid _ (Or.inl (by omega))
  · rw [if_neg (fun hc => h ⟨hc.1, hc.2⟩), if_neg h]

/-- Lower-casing never changes whether a character is whitespace. -/
theorem pyIsSpace_toLower (c : Char) : pyIsSpace (Char.toLower c) = pyIsSpace c := by
  simp only [pyIsSpace, toLower_toNat]
  by_cases h : 65 ≤ c.toNat ∧ c.toNat ≤ 90
  · rw [if_pos h, Bool.eq_iff_iff]
    simp only [Bool.or_eq_true, beq_iff_eq]
    omega
  · rw [if_neg h]

/-- Function form of `pyIsSpace_toLower`. -/
theorem pyIsSpace_comp_toLower : pyIsSpace ∘ Char.toLower = pyIsSpace := by
  funext c
  exact pyIsSpace_toLower c

/-- Left strip commutes with lower-casing. -/
theorem stripLeft_lower_comm (l : List Char) :
    stripLeftL (pyLowerL l) = pyLowerL (stripLeftL l) := by
  simp only [stripLeftL, pyLowerL]
  rw [List.dropWhile_map, pyIsSpace_comp_toLower]

/-- Right strip commutes with lower-casing. -/
theorem stripRight_lower_comm (l : List Char) :
    stripRightL (pyLowerL l) = pyLowerL (stripRightL l) := by
  simp only [stripRightL, pyLowerL]
  rw [← List.map_reverse, List.dropWhile_map, pyIsSpace_comp_toLower, List.map_reverse]

/-- Python strip commutes with lower-casing. -/
theorem stripL_lower_comm (l : List Char) : pyStripL (pyLowerL l) = pyLowerL (pyStripL l) := by
  unfold pyStripL
  rw [stripLeft_lower_comm, stripRight_lower_comm]

/-- Claim C7 (amended): for every entity type and non-empty, non-sentinel
values, node construction succeeds and produces the same node id whenever
the values differ only by leading or trailing whitespace, only by letter
case, or more generally whenever their normalised forms (strip, lower-case,
collapse doubled backslashes) coincide, which covers doubled-versus-single
backslash differences.  Forward-slash versus backslash separator style is
not unified (see the counterexample). -/
theorem c7_node_id_normalization (etype v1 v2 : String)
    (h1a : v1 ≠ "") (h1b : v1 ≠ "-") (h1c : v1 ≠ "NOT_TRANSLATED")
    (h2a : v2 ≠ "") (h2b : v2 ≠ "-") (h2c : v2 ≠ "NOT_TRANSLATED")
    (hrel : pyStripL v1.toList = pyStripL v2.toList ∨
            pyLowerL v1.toList = pyLowerL v2.toList ∨
            pyNormalizeL v1.toList = pyNormalizeL v2.toList) :
    ∃ n1 n2, nodeOf etype v1 none = some n1 ∧ nodeOf etype v2 none = some n2 ∧ n1.1 = n2.1 := by
  have hnorm : pyNormalizeL v1.toList = pyNormalizeL v2.toList := by
    rcases hrel with h | h | h
    · unfold pyNormalizeL
      rw [h]
    · unfold pyNormalizeL
      rw [← stripL_lower_comm, h, stripL_lower_comm]
    · exact h
  have c1 : ¬ (v1 = "" ∨ v1 = "-" ∨ v1 = "NOT_TRANSLATED") := by simp [h1a, h1b, h1c]
  have c2 : ¬ (v2 = "" ∨ v2 = "-" ∨ v2 = "NOT_TRANSLATED") := by simp [h2a, h2b, h2c]
  unfold nodeOf
  rw [if_neg c1, if_neg c2]
  refine ⟨_, _, rfl, rfl, ?_⟩
  dsimp only
  rw [hnorm]

/-- Witness for C7: two process paths differing only by case share one node
id. -/
theorem c7_witness :
    ∃ n1 n2, nodeOf "process" "C:\\X.EXE" none = some n1 ∧
      nodeOf "process" "c:\\x.exe" none = some n2 ∧ n1.1 = n2.1 :=
  c7_node_id_normalization "process" "C:\\X.EXE" "c:\\x.exe" (by decide) (by decide) (by decide)
    (by decide) (by decide) (by decide) (Or.inr (Or.inl (by decide)))

/-- An empty allow-list (Python None or an empty list, both falsy) skips
nothing. -/
theorem skipEvent_nil (e : Event) : skipEvent [] e = false := by
  simp [skipEvent]

/-- Python `event.get(k, d)` falls back to the default when the key is
absent. -/
theorem getD_eq_default_of_not_hasKey (e : Event) (k d : String) (h : hasKey e k = false) :
    getD e k d = d := by
  unfold getD
  unfold hasKey at h
  cases hv : getv e k
  · simp
  · rw [hv] at h
    simp at h

/-- Claim C10: with a non-empty allow-list, building the graph is the same
as building it from only the events whose EventID value is in the list, and
an event with no EventID key at all contributes exactly when the empty
string (its `get` default) is in the list. -/
theorem c10_allowlist_filter (events : List Event) (fmt : String) (allowed : List String)
    (hne : allowed ≠ []) :
    buildGraph events fmt allowed =
      buildGraph (events.filter (fun e => allowed.contains (getD e "EventID" ""))) fmt [] ∧
    (∀ e : Event, hasKey e "EventID" = false →
      (skipEvent allowed e = false ↔ ("" : String) ∈ allowed)) := by
  have hie : allowed.isEmpty = false := by
    cases allowed with
    | nil => exact absurd rfl hne
    | cons a as => rfl
  constructor
  · unfold buildGraph
    suffices h : ∀ g, events.foldl (processEvent fmt allowed) g =
        (events.filter (fun e => allowed.contains (getD e "EventID" ""))).foldl
          (processEvent fmt []) g by
      exact h _
    intro g
    induction events generalizing g with
    | nil => rfl
    | cons e evs ih =>
      rw [List.foldl_cons]
      by_cases hc : allowed.contains (getD e "EventID" "") = true
      · have hskip : skipEvent allowed e = false := by
          unfold skipEvent
          rw [hc]
          simp
        have hpe : processEvent fmt allowed g e = processEvent fmt [] g e := by
          unfold processEvent
          rw [hskip, skipEvent_nil]
        simp only [List.filter_cons, hc, if_true, List.foldl_cons, hpe]
        exact ih _
      · have hc2 : allowed.contains (getD e "EventID" "") = false := by
          simpa using hc
        have hskip : skipEvent allowed e = true := by
          unfold skipEvent
          rw [hc2, hie]
          simp
        have hpe : processEvent fmt allowed g e = g := by
          simp [processEvent, hskip]
        simp only [List.filter_cons, hc2, Bool.false_eq_true, if_false, hpe]
        exact ih g
  · intro e hk
    unfold skipEvent
    rw [getD_eq_default_of_not_hasKey e _ _ hk, hie]
    simp [List.elem_iff]

/-- Witness for C10: the allow-list consisting of sysmon EventID 1 filters
a two-event batch down to the process-creation event. -/
theorem c10_witness :
    (buildGraph [c6EvA, c6EvB] "xml_sysmon" ["1"] =
      buildGraph ([c6EvA, c6EvB].filter
        (fun e => ["1"].contains (getD e "EventID" ""))) "xml_sysmon" []) ∧
    (∀ e : Event, hasKey e "EventID" = false →
      (skipEvent ["1"] e = false ↔ ("" : String) ∈ ["1"])) :=
  c10_allowlist_filter [c6EvA, c6EvB] "xml_sysmon" ["1"] (by decide)

/-- Claim C8, counterexample: with three requirement-bearing techniques of
which one is covered, the reported overall percentage is the rounded 33.3,
not the exact ratio 100 times 1 over 3 the claim specifies. -/
theorem c8_counterexample :
    (analyzeCoverage c8Techs ["A"]).techniques_with_data = 1 ∧
    (analyzeCoverage c8Techs ["A"]).techniques_with_requirements = 3 ∧
    (analyzeCoverage c8Techs ["A"]).overall_coverage_pct = 333/10 ∧
    ((333 : ℚ)/10 ≠ 100 * 1 / 3) := by
  norm_num +decide [analyzeCoverage, coverageStep, c8Techs, pyRound1, List.contains, List.filter]

/-- Component names of a technique after the techDCs update. -/
theorem compsOf_mk_update (st : RelState) (tm ds dc : String) (ct : String → List String)
    (sp : List (String × String)) (t : String) :
    compsOf (RelState.mk
      (fun x => if x = tm then st.techDCs x ++ [DataComp.mk ds dc] else st.techDCs x) ct sp) t =
      if t = tm then compsOf st t ++ [dc] else compsOf st t := by
  unfold compsOf
  dsimp only
  by_cases ht : t = tm
  · rw [if_pos ht, if_pos ht, List.map_append]
    rfl
  · rw [if_neg ht, if_neg ht]

/-- Processing one relationship never removes a component from a
technique list. -/
theorem compsOf_processRel_mono (f g : String → Option String) (d : String → String)
    (st : RelState) (r : StixRel) (c t : String) (h : c ∈ compsOf st t) :
    c ∈ compsOf (processRel f g d st r) t := by
  unfold processRel
  split
  · exact h
  split
  · rcases hf : f r.source_ref with _ | dc <;> rcases hg : g r.target_ref with _ | tm <;>
      simp only
    · exact h
    · exact h
    · exact h
    · split
      · split
        · split
          · exact h
          · exact h
        · split
          · rw [compsOf_mk_update]
            by_cases ht : t = tm
            · rw [if_pos ht]
              exact List.mem_append_left _ h
            · rw [if_neg ht]
              exact h
          · show c ∈ compsOf (RelState.mk (fun x => if x = tm then st.techDCs x ++
              [DataComp.mk (d dc) dc] else st.techDCs x) st.compTechs st.subParents) t
            rw [compsOf_mk_update]
            by_cases ht : t = tm
            · rw [if_pos ht]
              exact List.mem_append_left _ h
            · rw [if_neg ht]
              exact h
      · exact h
  · split
    · rcases hf : g r.source_ref with _ | ch <;> rcases hg : g r.target_ref with _ | pa <;>
        simp only
      · exact h
      · exact h
      · exact h
      · split
        · exact h
        · exact h
    · exact h


/-- Processing one relationship never removes a technique from a
component back-reference list. -/
theorem compTechs_processRel_mono (f g : String → Option String) (d : String → String)
    (st : RelState) (r : StixRel) (c t : String) (h : t ∈ st.compTechs c) :
    t ∈ (processRel f g d st r).compTechs c := by
  unfold processRel
  split
  · exact h
  split
  · rcases hf : f r.source_ref with _ | dc <;> rcases hg : g r.target_ref with _ | tm <;>
      simp only
    · exact h
    · exact h
    · exact h
    · split
      · split
        · split
          · exact h
          · show t ∈ (if c = dc then st.compTechs c ++ [tm] else st.compTechs c)
            by_cases hc : c = dc
            · rw [if_pos hc]
              exact List.mem_append_left _ h
            · rw [if_neg hc]
              exact h
        · split
          · exact h
          · show t ∈ (if c = dc then st.compTechs c ++ [tm] else st.compTechs c)
            by_cases hc : c = dc
            · rw [if_pos hc]
              exact List.mem_append_left _ h
            · rw [if_neg hc]
              exact h
      · exact h
  · split
    · rcases hf : g r.source_ref with _ | ch <;> rcases hg : g r.target_ref with _ | pa <;>
        simp only
      · exact h
      · exact h
      · exact h
      · split
        · exact h
        · exact h
    · exact h

/-- Processing a resolvable, non-revoked detects relationship records the
link in both directions. -/
theorem processRel_adds (f g : String → Option String) (d : String → String)
    (st : RelState) (r : StixRel) (c t : String)
    (htype : r.relationship_type = "detects") (hrev : r.revoked = false)
    (hdep : r.deprecated = false) (hc : f r.source_ref = some c)
    (ht : g r.target_ref = some t) (hcne : c ≠ "") (htne : t ≠ "") :
    c ∈ compsOf (processRel f g d st r) t ∧ t ∈ (processRel f g d st r).compTechs c := by
  unfold processRel
  rw [hrev, hdep]
  simp only [Bool.or_self, Bool.false_eq_true, if_false, htype, if_true, hc, ht]
  rw [if_pos (And.intro hcne htne)]
  constructor
  · by_cases h1 : (compsOf st t).contains c = true
    · rw [if_pos h1]
      by_cases h2 : (st.compTechs c).contains t = true
      · rw [if_pos h2]
        exact List.elem_iff.mp h1
      · rw [if_neg h2]
        show c ∈ compsOf st t
        exact List.elem_iff.mp h1
    · rw [if_neg h1]
      dsimp only
      by_cases h2 : (st.compTechs c).contains t = true
      · rw [if_pos h2]
        rw [compsOf_mk_update, if_pos rfl]
        exact List.mem_append_right _ (List.mem_singleton_self c)
      · rw [if_neg h2]
        show c ∈ compsOf (RelState.mk (fun x => if x = t then st.techDCs x ++
          [DataComp.mk (d c) c] else st.techDCs x) st.compTechs st.subParents) t
        rw [compsOf_mk_update, if_pos rfl]
        exact List.mem_append_right _ (List.mem_singleton_self c)
  · by_cases h1 : (compsOf st t).contains c = true
    · rw [if_pos h1]
      by_cases h2 : (st.compTechs c).contains t = true
      · rw [if_pos h2]
        exact List.elem_iff.mp h2
      · rw [if_neg h2]
        show t ∈ (if c = c then st.compTechs c ++ [t] else st.compTechs c)
        rw [if_pos rfl]
        exact List.mem_append_right _ (List.mem_singleton_self t)
    · rw [if_neg h1]
      dsimp only
      by_cases h2 : (st.compTechs c).contains t = true
      · rw [if_pos h2]
        exact List.elem_iff.mp h2
      · rw [if_neg h2]
        show t ∈ (if c = c then st.compTechs c ++ [t] else st.compTechs c)
        rw [if_pos rfl]
        exact List.mem_append_right _ (List.mem_singleton_self t)


/-- The membership guards keep both lists duplicate-free. -/
theorem relInv_processRel (f g : String → Option String) (d : String → String)
    (st : RelState) (r : StixRel) (h : RelInv st) : RelInv (processRel f g d st r) := by
  obtain ⟨h1, h2⟩ := h
  unfold processRel
  split
  · exact ⟨h1, h2⟩
  split
  · rcases hf : f r.source_ref with _ | dc <;> rcases hg : g r.target_ref with _ | tm <;>
      simp only
    · exact ⟨h1, h2⟩
    · exact ⟨h1, h2⟩
    · exact ⟨h1, h2⟩
    · split
      · by_cases hc1 : (compsOf st tm).contains dc = true
        · rw [if_pos hc1]
          by_cases hc2 : (st.compTechs dc).contains tm = true
          · rw [if_pos hc2]
            exact ⟨h1, h2⟩
          · rw [if_neg hc2]
            constructor
            · intro t
              exact h1 t
            · intro c2
              show (if c2 = dc then st.compTechs c2 ++ [tm] else st.compTechs c2).Nodup
              by_cases hcd : c2 = dc
              · rw [if_pos hcd, ← List.concat_eq_append]
                refine List.Nodup.concat ?_ (h2 c2)
                intro hm
                rw [hcd] at hm
                exact hc2 (List.elem_iff.mpr hm)
              · rw [if_neg hcd]
                exact h2 c2
        · rw [if_neg hc1]
          dsimp only
          have hU : ∀ t, (compsOf (RelState.mk (fun x => if x = tm then st.techDCs x ++
              [DataComp.mk (d dc) dc] else st.techDCs x) st.compTechs st.subParents) t).Nodup := by
            intro t
            rw [compsOf_mk_update]
            by_cases htm : t = tm
            · rw [if_pos htm, ← List.concat_eq_append]
              refine List.Nodup.concat ?_ (h1 t)
              intro hm
              rw [htm] at hm
              exact hc1 (List.elem_iff.mpr hm)
            · rw [if_neg htm]
              exact h1 t
          by_cases hc2 : (st.compTechs dc).contains tm = true
          · rw [if_pos hc2]
            exact ⟨hU, h2⟩
          · rw [if_neg hc2]
            constructor
            · intro t
              exact hU t
            · intro c2
              show (if c2 = dc then st.compTechs c2 ++ [tm] else st.compTechs c2).Nodup
              by_cases hcd : c2 = dc
              · rw [if_pos hcd, ← List.concat_eq_append]
                refine List.Nodup.concat ?_ (h2 c2)
                intro hm
                rw [hcd] at hm
                exact hc2 (List.elem_iff.mpr hm)
              · rw [if_neg hcd]
                exact h2 c2
      · exact ⟨h1, h2⟩
  · split
    · rcases hf : g r.source_ref with _ | ch <;> rcases hg : g r.target_ref with _ | pa <;>
        simp only
      · exact ⟨h1, h2⟩
      · exact ⟨h1, h2⟩
      · exact ⟨h1, h2⟩
      · split
        · exact ⟨h1, h2⟩
        · exact ⟨h1, h2⟩
    · exact ⟨h1, h2⟩

/-- Duplicate-freedom is preserved by the whole relationship loop. -/
theorem relInv_foldl (f g : String → Option String) (d : String → String)
    (rels : List StixRel) (st : RelState) (h : RelInv st) :
    RelInv (rels.foldl (processRel f g d) st) := by
  induction rels generalizing st with
  | nil => exact h
  | cons r rels ih =>
    rw [List.foldl_cons]
    exact ih _ (relInv_processRel f g d st r h)

/-- Recorded links survive the rest of the relationship loop. -/
theorem mem_foldl_mono (f g : String → Option String) (d : String → String)
    (rels : List StixRel) (st : RelState) (c t : String)
    (h : c ∈ compsOf st t ∧ t ∈ st.compTechs c) :
    c ∈ compsOf (rels.foldl (processRel f g d) st) t ∧
      t ∈ (rels.foldl (processRel f g d) st).compTechs c := by
  induction rels generalizing st with
  | nil => exact h
  | cons r rels ih =>
    rw [List.foldl_cons]
    exact ih _ ⟨compsOf_processRel_mono f g d st r c t h.1,
      compTechs_processRel_mono f g d st r c t h.2⟩

/-- Claim C9: detects relationships are recorded bidirectionally and
without duplicates.  For every relationship in the loaded bundle of type
detects between non-revoked, non-deprecated objects whose endpoints resolve
to a component c and a technique t, after the relationship loop c appears
exactly once in t's required-component list and t appears exactly once in
c's technique list. -/
theorem c9_detects_bidirectional_once (dcIdToName techIdMap : String → Option String) (dsOfComp : String → String)
    (rels : List StixRel) (rel : StixRel) (c t : String)
    (hmem : rel ∈ rels) (htype : rel.relationship_type = "detects")
    (hrev : rel.revoked = false) (hdep : rel.deprecated = false)
    (hc : dcIdToName rel.source_ref = some c) (ht : techIdMap rel.target_ref = some t)
    (hcne : c ≠ "") (htne : t ≠ "") :
    ((compsOf (processRels dcIdToName techIdMap dsOfComp rels) t).count c = 1) ∧
    (((processRels dcIdToName techIdMap dsOfComp rels).compTechs c).count t = 1) := by
  obtain ⟨l1, l2, hsplit⟩ := List.append_of_mem hmem
  have hinv : RelInv (processRels dcIdToName techIdMap dsOfComp rels) := by
    apply relInv_foldl
    exact ⟨fun _ => List.nodup_nil, fun _ => List.nodup_nil⟩
  have hmem2 : c ∈ compsOf (processRels dcIdToName techIdMap dsOfComp rels) t ∧
      t ∈ (processRels dcIdToName techIdMap dsOfComp rels).compTechs c := by
    unfold processRels
    rw [hsplit, List.foldl_append, List.foldl_cons]
    apply mem_foldl_mono
    exact processRel_adds dcIdToName techIdMap dsOfComp _ rel c t htype hrev hdep hc ht hcne htne
  exact ⟨List.count_eq_one_of_mem (hinv.1 t) hmem2.1,
    List.count_eq_one_of_mem (hinv.2 c) hmem2.2⟩


/-- Witness for C9: one detects relationship linking Process Creation to
T1059 is recorded once in each direction. -/
theorem c9_witness :
    ((compsOf (processRels c9DcName c9TechId c9DsOf [c9Rel]) "T1059").count
      "Process Creation" = 1) ∧
    (((processRels c9DcName c9TechId c9DsOf [c9Rel]).compTechs
      "Process Creation").count "T1059" = 1) :=
  c9_detects_bidirectional_once c9DcName c9TechId c9DsOf [c9Rel] c9Rel "Process Creation" "T1059"
    (List.mem_singleton_self c9Rel) rfl rfl rfl (by decide) (by decide) (by decide) (by decide)

end ThreatGrapher
